import Mathlib

/-!
Verification of the Shy PNM loader (single-header C library, `PnmLoad` and its
helpers) against its natural-language specification.

The byte stream (`FILE *` opened in `"rb"` mode) is modelled by `CFile`:
`rest` is the list of bytes from the current cursor to the end of the file,
and `eof` is the stream's end-of-file indicator.  C stream semantics:

* `fgetc` returns `EOF = -1` immediately when the indicator is set; otherwise
  it consumes one byte, or returns `-1` and sets the indicator at the end;
* `feof` reads the indicator (it is only set by a read that hit the end);
* `fseek` back to a saved position restores the saved byte list and clears
  the indicator (in `TokenMatch` the bookmark is the entry position, and in
  `FindToken` the single-byte pushback restores the byte just read).

Loops of the C source that can run forever (`while (fgetc(f) != '\n');` in
`GrabInt` and `PbmAsciiLoad`, and the PAM header keyword loop when the stream
is exhausted before `ENDHDR`) are modelled with an `Option`: `none` means the
C code does not terminate.  All other loops are proved terminating.

Each failure exit of the C code (return of `NULL`/`false` together with a
diagnostic on `stderr`) is tagged with the `DecodeError` naming the check
that failed, following the spec's error taxonomy.
-/

set_option linter.unusedVariables false

namespace ShyPnm

/-- C `isspace` on a byte, default locale: space, \t, \n, \v, \f, \r. -/
def isspace (b : Nat) : Bool :=
  b = 32 || b = 9 || b = 10 || b = 11 || b = 12 || b = 13

/-- A C stream: remaining bytes after the cursor, and the EOF indicator. -/
structure CFile where
  rest : List Nat
  eof : Bool
deriving Repr, DecidableEq

/-- C `fgetc`: `-1` if the EOF indicator is set; otherwise consume one byte,
or return `-1` and set the indicator when the stream is exhausted. -/
def fgetc (s : CFile) : Int × CFile :=
  if s.eof then (-1, s)
  else
    match s.rest with
    | [] => (-1, ⟨[], true⟩)
    | b :: t => ((b : Int), ⟨t, false⟩)

/-- Error taxonomy of the spec; each value names the C check/message site
that caused the `NULL` return. -/
inductive DecodeError where
  | UnexpectedEof
  | MalformedInteger
  | InvalidDimension
  | InvalidRange
  | RangeExceeded
  | InvalidMagic
deriving Repr, DecidableEq

/-- Consume bytes up to and including the first newline; `none` if the list
is exhausted first.  Shared body of the comment-skipping loops. -/
def dropLine : List Nat → Option (List Nat)
  | [] => none
  | b :: t => if b = 10 then some t else dropLine t

/-- The checked comment loop `while (!feof(f) && fgetc(f) != '\n');`
(lines 49, 63): stops after consuming a newline, or at end of stream with
the EOF indicator set. -/
def skipCommentChecked (s : CFile) : CFile :=
  if s.eof then s
  else
    match dropLine s.rest with
    | some t => ⟨t, false⟩
    | none => ⟨[], true⟩

/-- The unchecked comment loop `while (fgetc(f) != '\n');` (lines 126, 602):
if the stream ends (or the EOF indicator is already set) before a newline is
read, `fgetc` returns `-1` forever and the C loop never terminates, which is
modelled as `none`. -/
def skipLineUnchecked (s : CFile) : Option CFile :=
  if s.eof then none
  else (dropLine s.rest).map (fun t => ⟨t, false⟩)

theorem dropLine_length : ∀ {l t : List Nat}, dropLine l = some t → t.length < l.length := by
  intro l
  induction l with
  | nil => intro t h; simp [dropLine] at h
  | cons b l ih =>
    intro t h
    by_cases hb : b = 10
    · rw [dropLine, if_pos hb] at h
      cases h
      simp
    · rw [dropLine, if_neg hb] at h
      have := ih h
      simp only [List.length_cons]
      omega

theorem skipLineUnchecked_length {s u : CFile} (h : skipLineUnchecked s = some u) :
    u.rest.length < s.rest.length := by
  unfold skipLineUnchecked at h
  split at h
  · simp at h
  · rcases Option.map_eq_some'.1 h with ⟨a, ha, hu⟩
    cases hu
    exact dropLine_length ha

theorem skipCommentChecked_length (s : CFile) :
    (skipCommentChecked s).rest.length ≤ s.rest.length := by
  unfold skipCommentChecked
  split
  · exact Nat.le_refl _
  · split
    · next h => exact Nat.le_of_lt (dropLine_length h)
    · simp

/-- `FindToken` (lines 43-57): skip whitespace and `#` comments; stop with the
first other byte pushed back (`fseek(f, -1, SEEK_CUR)`), or at end of stream
with the EOF indicator set (when the indicator is already set, the first
`fgetc` returns -1 at once and the stream is left as it is). -/
def FindToken : CFile → CFile
  | ⟨r, true⟩ => ⟨r, true⟩
  | ⟨[], false⟩ => ⟨[], true⟩
  | ⟨b :: t, false⟩ =>
    if b = 35 then FindToken (skipCommentChecked ⟨t, false⟩)
    else if isspace b then FindToken ⟨t, false⟩
    else ⟨b :: t, false⟩
termination_by s => s.rest.length
decreasing_by
  · have := skipCommentChecked_length (⟨t, false⟩ : CFile)
    simp at this
    simp
    omega
  · simp

/-- `TokenTerminator` (lines 59-69): consume one byte; a `#` consumes the rest
of the comment line and counts as a terminator; otherwise the byte terminates
a token iff it is EOF or whitespace. -/
def TokenTerminator : CFile → Bool × CFile
  | ⟨r, true⟩ => (true, ⟨r, true⟩)
  | ⟨[], false⟩ => (true, ⟨[], true⟩)
  | ⟨b :: t, false⟩ =>
    if b = 35 then (true, skipCommentChecked ⟨t, false⟩)
    else (isspace b, ⟨t, false⟩)

theorem TokenTerminator_false : ∀ {s : CFile}, (TokenTerminator s).1 = false →
    (TokenTerminator s).2.rest.length < s.rest.length := by
  intro s h
  match s with
  | ⟨r, true⟩ => simp [TokenTerminator] at h
  | ⟨[], false⟩ => simp [TokenTerminator] at h
  | ⟨b :: t, false⟩ =>
    by_cases hb : b = 35
    · simp [TokenTerminator, hb] at h
    · simp [TokenTerminator, hb] at h ⊢

/-- `SkipToken` (lines 71-75): consume bytes until a token terminator has been
consumed. -/
def SkipToken (s : CFile) : CFile :=
  if h : (TokenTerminator s).1 then (TokenTerminator s).2
  else SkipToken (TokenTerminator s).2
termination_by s.rest.length
decreasing_by
  exact TokenTerminator_false (by simpa using h)

/-- Body of the `TokenMatch` character loop (lines 77-98): `s₀` is the
bookmarked entry state (`bookmark = ftell(f)`); a mismatch — from the EOF
indicator, from the stream ending, or from a differing byte — seeks back to
the bookmark, which clears the EOF indicator.  After the word, a token
terminator must follow, or the cursor is likewise restored. -/
def TokenMatchAux (s₀ : CFile) : CFile → List Nat → Bool × CFile
  | s, [] =>
    if (TokenTerminator s).1 then (true, (TokenTerminator s).2)
    else (false, ⟨s₀.rest, false⟩)
  | ⟨r, true⟩, _ch :: _cs => (false, ⟨s₀.rest, false⟩)
  | ⟨[], false⟩, _ch :: _cs => (false, ⟨s₀.rest, false⟩)
  | ⟨b :: t, false⟩, ch :: cs =>
    if b = ch then TokenMatchAux s₀ ⟨t, false⟩ cs
    else (false, ⟨s₀.rest, false⟩)

/-- `TokenMatch` (lines 77-98) with the keyword as a byte list. -/
def TokenMatch (s : CFile) (str : List Nat) : Bool × CFile :=
  TokenMatchAux s s str

/-- The digit-accumulation loop of `GrabInt` (lines 111-130) with accumulator
`n`: the loop ends at EOF or whitespace (returning `n`), at `#` (the rest of
the comment line is then skipped by the unchecked loop, possibly diverging),
and any non-digit byte inside the token is `MalformedInteger` (C returns -1
after printing the invalid-character message). -/
def GrabIntLoop : CFile → Int → Option (Except DecodeError Int × CFile)
  | ⟨r, true⟩, n => some (.ok n, ⟨r, true⟩)
  | ⟨[], false⟩, n => some (.ok n, ⟨[], true⟩)
  | ⟨b :: t, false⟩, n =>
    if isspace b then some (.ok n, ⟨t, false⟩)
    else if b = 35 then (skipLineUnchecked ⟨t, false⟩).map (fun u => (.ok n, u))
    else if 48 ≤ b ∧ b ≤ 57 then GrabIntLoop ⟨t, false⟩ (n * 10 + ((b : Int) - 48))
    else some (.error .MalformedInteger, ⟨t, false⟩)
termination_by s n => s.rest.length
decreasing_by simp

/-- `GrabInt` (lines 100-131): skip to the next token, fail `UnexpectedEof`
(C returns -1 after the end-of-file message) when the stream is exhausted,
else run the digit loop.  `.error e` models C's -1 return with message `e`;
an `.ok` value is always ≥ 0 (`GrabInt_ok_nonneg` below), so C's later
`< 0` tests on the result single out exactly the `.error` case. -/
def GrabInt (s : CFile) : Option (Except DecodeError Int × CFile) :=
  if (FindToken s).eof then some (.error .UnexpectedEof, FindToken s)
  else GrabIntLoop (FindToken s) 0

/-- PAM header keywords as byte lists. -/
def strDEPTH : List Nat := [68, 69, 80, 84, 72]

def strMAXVAL : List Nat := [77, 65, 88, 86, 65, 76]

def strHEIGHT : List Nat := [72, 69, 73, 71, 72, 84]

def strWIDTH : List Nat := [87, 73, 68, 84, 72]

def strENDHDR : List Nat := [69, 78, 68, 72, 68, 82]

/-- Outcome of one iteration of the PAM keyword-header loop: continue with
updated fields, `ENDHDR` reached, a failing `GrabInt` (C returns `NULL`), or
divergence inside `GrabInt`'s unchecked comment skip. -/
inductive PamStep where
  | more (s : CFile) (w h d m : Int)
  | done (s : CFile) (w h d m : Int)
  | err (e : DecodeError) (s : CFile)
  | div
deriving Repr, DecidableEq

/-- One iteration of the PAM keyword-header loop (lines 135-174).  `w h d m`
are the current contents of the output variables, threaded as parameters
(the C variables start uninitialized).  Keywords are tried in source order
DEPTH, MAXVAL, HEIGHT, WIDTH, ENDHDR; on a failed match the cursor was
restored by `TokenMatch`.  An unknown token is skipped together with the
following token. -/
def PamIter (s : CFile) (w h d m : Int) : PamStep :=
  let rD := TokenMatch (FindToken s) strDEPTH
  if rD.1 then
    match GrabInt rD.2 with
    | none => .div
    | some (.error e, u) => .err e u
    | some (.ok n, u) => .more u w h n m
  else
  let rM := TokenMatch rD.2 strMAXVAL
  if rM.1 then
    match GrabInt rM.2 with
    | none => .div
    | some (.error e, u) => .err e u
    | some (.ok n, u) => .more u w h d n
  else
  let rH := TokenMatch rM.2 strHEIGHT
  if rH.1 then
    match GrabInt rH.2 with
    | none => .div
    | some (.error e, u) => .err e u
    | some (.ok n, u) => .more u w n d m
  else
  let rW := TokenMatch rH.2 strWIDTH
  if rW.1 then
    match GrabInt rW.2 with
    | none => .div
    | some (.error e, u) => .err e u
    | some (.ok n, u) => .more u n h d m
  else
  let rE := TokenMatch rW.2 strENDHDR
  if rE.1 then .done rE.2 w h d m
  else .more (SkipToken (FindToken (SkipToken rE.2))) w h d m

/-- The PAM keyword loop `for (bool header = true; header;)` of lines
135-174.  The loop does not always terminate: once the stream is exhausted
before `ENDHDR`, every keyword match fails from EOF and the unknown-token
branch consumes nothing, so the C loop spins forever on the same state.
Every `.more` iteration either strictly consumes bytes, or leaves the byte
list unchanged and only raises the EOF indicator, after which the next
iteration reproduces the state exactly (`PamIter_stuck` below); the
recursion follows these progress cases and returns `none` (divergence) at
the fixed point. -/
def ReadPamHeaderLoop (s : CFile) (w h d m : Int) :
    Option (Except DecodeError (Int × Int × Int × Int) × CFile) :=
  match PamIter s w h d m with
  | .div => none
  | .err e u => some (.error e, u)
  | .done u w' h' d' m' => some (.ok (w', h', d', m'), u)
  | .more u w' h' d' m' =>
    if hg : u.rest.length < s.rest.length ∨
        (u.rest.length = s.rest.length ∧ s.eof = false ∧ u.eof = true) then
      ReadPamHeaderLoop u w' h' d' m'
    else none
termination_by (s.rest.length, if s.eof then 0 else 1)
decreasing_by
  rcases hg with h1 | ⟨h1, h2, h3⟩
  · exact Prod.Lex.left _ _ h1
  · rw [h1, h2, h3]
    exact Prod.Lex.right _ (by simp)

/-- `ReadPamHeader` (lines 133-214): run the keyword loop, then validate
depth (1-4, else `InvalidRange`), maxval (1-65535, else `InvalidRange`),
width and height (at least 1, else `InvalidDimension`), in that order; the
pixel buffer `malloc` is modelled as always succeeding. -/
def ReadPamHeader (s : CFile) (w₀ h₀ d₀ m₀ : Int) :
    Option (Except DecodeError (Int × Int × Int × Int) × CFile) :=
  match ReadPamHeaderLoop s w₀ h₀ d₀ m₀ with
  | none => none
  | some (.error e, u) => some (.error e, u)
  | some (.ok (w, h, d, m), u) =>
    if d < 1 ∨ 4 < d then some (.error .InvalidRange, u)
    else if m < 1 ∨ 65535 < m then some (.error .InvalidRange, u)
    else if w < 1 then some (.error .InvalidDimension, u)
    else if h < 1 then some (.error .InvalidDimension, u)
    else some (.ok (w, h, d, m), u)

/-- `ReadHeader` (lines 216-264): parse width, height, maxval.  A value of 0
for width/height fails `InvalidDimension` (C prints the at-least-1 message
exactly when the parsed value is 0; a `GrabInt` failure propagates its own
error).  Maxval outside 1-65535 fails `InvalidRange` (for a parsed 0 the C
prints no message but takes the same failing branch).  `malloc` is modelled
as always succeeding. -/
def ReadHeader (s : CFile) : Option (Except DecodeError (Int × Int × Int) × CFile) :=
  match GrabInt s with
  | none => none
  | some (.error e, u) => some (.error e, u)
  | some (.ok w, s₁) =>
    if w < 1 then some (.error .InvalidDimension, s₁)
    else
      match GrabInt s₁ with
      | none => none
      | some (.error e, u) => some (.error e, u)
      | some (.ok h, s₂) =>
        if h < 1 then some (.error .InvalidDimension, s₂)
        else
          match GrabInt s₂ with
          | none => none
          | some (.error e, u) => some (.error e, u)
          | some (.ok m, s₃) =>
            if m < 1 ∨ 65535 < m then some (.error .InvalidRange, s₃)
            else some (.ok (w, h, m), s₃)

/-- `ReadPbmHeader` (lines 266-301): like `ReadHeader` but with no maxval
field (PBM samples are single bits). -/
def ReadPbmHeader (s : CFile) : Option (Except DecodeError (Int × Int) × CFile) :=
  match GrabInt s with
  | none => none
  | some (.error e, u) => some (.error e, u)
  | some (.ok w, s₁) =>
    if w < 1 then some (.error .InvalidDimension, s₁)
    else
      match GrabInt s₁ with
      | none => none
      | some (.error e, u) => some (.error e, u)
      | some (.ok h, s₂) =>
        if h < 1 then some (.error .InvalidDimension, s₂)
        else some (.ok (w, h), s₂)

/-- Conversion of a C `int` value to `uint32_t` (two's complement, so
`fgetc`'s -1 becomes 0xFFFFFFFF). -/
def uint32ofInt (c : Int) : Nat :=
  (c % 4294967296).toNat

/-- `GrabAsciiValue` (lines 303-317): parse a decimal sample; a `GrabInt`
failure (C's `n < 0`) propagates; a value above maxval is `RangeExceeded`;
otherwise store `((uint32_t)n * 255) / maxval` (all in uint32 arithmetic). -/
def GrabAsciiValue (s : CFile) (maxval : Int) : Option (Except DecodeError Nat × CFile) :=
  match GrabInt s with
  | none => none
  | some (.error e, u) => some (.error e, u)
  | some (.ok n, u) =>
    if n > maxval then some (.error .RangeExceeded, u)
    else some (.ok (uint32ofInt n * 255 % 4294967296 / uint32ofInt maxval), u)

/-- Shared tail of `GrabBinValue` (lines 339-347): range check against
`(uint32_t)maxval`, then the uint32 rescaling `(*dest * 255) / maxval`. -/
def GrabBinFinish (maxval : Int) (dest : Nat) (s : CFile) : Except DecodeError Nat × CFile :=
  if dest > uint32ofInt maxval then (.error .RangeExceeded, s)
  else (.ok (dest * 255 % 4294967296 / uint32ofInt maxval), s)

/-- `GrabBinValue` (lines 319-348): `feof` is tested *before* each `fgetc`,
so a stream that merely ran out of bytes (indicator not yet raised) is NOT
reported as `UnexpectedEof`; instead `fgetc`'s -1 is stored through the
`uint32_t *dest`, giving 0xFFFFFFFF.  For maxval > 255 a second byte is read
(big-endian) the same way, `*dest = (*dest << 8) | fgetc(f)`. -/
def GrabBinValue (s : CFile) (maxval : Int) : Except DecodeError Nat × CFile :=
  if s.eof then (.error .UnexpectedEof, s)
  else
    let r₁ := fgetc s
    if maxval > 255 then
      if r₁.2.eof then (.error .UnexpectedEof, r₁.2)
      else
        let r₂ := fgetc r₁.2
        GrabBinFinish maxval ((uint32ofInt r₁.1 <<< 8) % 4294967296 ||| uint32ofInt r₂.1) r₂.2
    else GrabBinFinish maxval (uint32ofInt r₁.1) r₁.2

/-- RGBA packing `(c1<<24) | (c2<<16) | (c3<<8) | c4` in uint32 arithmetic. -/
def pixelPack (a b c d : Nat) : Nat :=
  (a <<< 24) % 4294967296 ||| (b <<< 16) % 4294967296 ||| (c <<< 8) % 4294967296 |||
    d % 4294967296

/-- Cons a freshly decoded pixel onto the pixels an already-run tail of the
loop produced (the C code writes `pix[i]` and continues; on a later failure
the whole buffer is freed, so only the error remains). -/
def consPixel (px : Nat) : Except DecodeError (List Nat) × CFile → Except DecodeError (List Nat) × CFile
  | (.ok pxs, u) => (.ok (px :: pxs), u)
  | r => r

/-- `GrayscaleLoad` (lines 350-380) as a function of the remaining pixel
count: each pixel is one gray sample (plus an alpha sample when `get_alpha`),
packed `(gray<<24)|(gray<<16)|(gray<<8)|alpha` with alpha 0xFF otherwise. -/
def GrayscaleLoad (maxval : Int) (get_alpha : Bool) : Nat → CFile → Except DecodeError (List Nat) × CFile
  | 0, s => (.ok [], s)
  | k + 1, s =>
    match GrabBinValue s maxval with
    | (.error e, u) => (.error e, u)
    | (.ok gray, s₁) =>
      if get_alpha then
        match GrabBinValue s₁ maxval with
        | (.error e, u) => (.error e, u)
        | (.ok alpha, s₂) =>
          consPixel (pixelPack gray gray gray alpha) (GrayscaleLoad maxval get_alpha k s₂)
      else
        consPixel (pixelPack gray gray gray 255) (GrayscaleLoad maxval get_alpha k s₁)

/-- `ColorLoad` (lines 382-409): three samples per pixel (plus alpha when
`get_alpha`), packed `(r<<24)|(g<<16)|(b<<8)|a` with alpha 0xFF otherwise. -/
def ColorLoad (maxval : Int) (get_alpha : Bool) : Nat → CFile → Except DecodeError (List Nat) × CFile
  | 0, s => (.ok [], s)
  | k + 1, s =>
    match GrabBinValue s maxval with
    | (.error e, u) => (.error e, u)
    | (.ok r, s₁) =>
      match GrabBinValue s₁ maxval with
      | (.error e, u) => (.error e, u)
      | (.ok g, s₂) =>
        match GrabBinValue s₂ maxval with
        | (.error e, u) => (.error e, u)
        | (.ok b, s₃) =>
          if get_alpha then
            match GrabBinValue s₃ maxval with
            | (.error e, u) => (.error e, u)
            | (.ok a, s₄) =>
              consPixel (pixelPack r g b a) (ColorLoad maxval get_alpha k s₄)
          else
            consPixel (pixelPack r g b 255) (ColorLoad maxval get_alpha k s₃)

/-- Result of one loader/`PnmLoad`: a pixel buffer with the reported width
and height, or a failure (C: `NULL`, `*w = *h = -1`, message `e`). -/
inductive LoadResult where
  | ok (pix : List Nat) (w h : Int)
  | err (e : DecodeError)
deriving Repr, DecidableEq

/-- `PamLoad` (lines 411-457): parse and validate the PAM header, then load
`w*h` pixels using the decoder selected by `depth`.  The validated header
guarantees `1 ≤ depth ≤ 4`; the C `default:` branch (which would return the
uninitialized buffer) is unreachable and modelled as `w*h` zero pixels. -/
def PamLoad (s : CFile) (w₀ h₀ d₀ m₀ : Int) : Option LoadResult :=
  match ReadPamHeader s w₀ h₀ d₀ m₀ with
  | none => none
  | some (.error e, _) => some (.err e)
  | some (.ok (w, h, d, m), s') =>
    match
      if d = 1 then GrayscaleLoad m false (w * h).toNat s'
      else if d = 2 then GrayscaleLoad m true (w * h).toNat s'
      else if d = 3 then ColorLoad m false (w * h).toNat s'
      else if d = 4 then ColorLoad m true (w * h).toNat s'
      else (.ok (List.replicate (w * h).toNat 0), s') with
    | (.ok pix, _) => some (.ok pix w h)
    | (.error e, _) => some (.err e)

/-- `PpmRawLoad` (lines 459-475). -/
def PpmRawLoad (s : CFile) : Option LoadResult :=
  match ReadHeader s with
  | none => none
  | some (.error e, _) => some (.err e)
  | some (.ok (w, h, m), s') =>
    match ColorLoad m false (w * h).toNat s' with
    | (.ok pix, _) => some (.ok pix w h)
    | (.error e, _) => some (.err e)

/-- `PgmRawLoad` (lines 477-493). -/
def PgmRawLoad (s : CFile) : Option LoadResult :=
  match ReadHeader s with
  | none => none
  | some (.error e, _) => some (.err e)
  | some (.ok (w, h, m), s') =>
    match GrayscaleLoad m false (w * h).toNat s' with
    | (.ok pix, _) => some (.ok pix w h)
    | (.error e, _) => some (.err e)

/-- The byte fetch at the start of a `PbmRawLoad` loop iteration (lines
506-519): at each multiple of 8 the C code tests `feof` *before* reading
`byte = fgetc(f)` through the `uint8_t`, so an exhausted stream whose
indicator is not yet raised yields `(uint8_t)(-1) = 0xFF` (and raises the
indicator); `none` is the `UnexpectedEof` exit, taken only when the
indicator was already raised.  Between multiples of 8 the previous byte is
reused. -/
def PbmRawRead (i byte : Nat) (s : CFile) : Option (Nat × CFile) :=
  if i % 8 = 0 then
    if s.eof then none
    else
      match s.rest with
      | [] => some (255, ⟨[], true⟩)
      | b :: t => some (b % 256, ⟨t, false⟩)
  else some (byte, s)

/-- The pixel loop of `PbmRawLoad` (lines 505-525), with `i` the current
pixel index and `byte` the byte read at the last multiple of 8.  Bit
`7 - i%8` of the current byte set means black `0x000000FF`, clear means
white `0xFFFFFFFF`.  Packing is continuous over the whole image, with no
per-row alignment. -/
def PbmRawAux : Nat → Nat → Nat → CFile → Except DecodeError (List Nat) × CFile
  | 0, _, _, s => (.ok [], s)
  | k + 1, i, byte, s =>
    match PbmRawRead i byte s with
    | none => (.error .UnexpectedEof, s)
    | some (byte2, s2) =>
      consPixel (if Nat.testBit byte2 (7 - i % 8) then 0x000000ff else 0xffffffff)
        (PbmRawAux k (i + 1) byte2 s2)

/-- `PbmRawLoad` (lines 495-528).  The initial value of the C's
uninitialized `byte` is irrelevant (the first iteration has `i % 8 = 0`);
it is modelled as 0. -/
def PbmRawLoad (s : CFile) : Option LoadResult :=
  match ReadPbmHeader s with
  | none => none
  | some (.error e, _) => some (.err e)
  | some (.ok (w, h), s') =>
    match PbmRawAux (w * h).toNat 0 0 s' with
    | (.ok pix, _) => some (.ok pix w h)
    | (.error e, _) => some (.err e)

/-- The pixel loop of `PpmAsciiLoad` (lines 541-551). -/
def PpmAsciiAux (maxval : Int) : Nat → CFile → Option (Except DecodeError (List Nat) × CFile)
  | 0, s => some (.ok [], s)
  | k + 1, s =>
    match GrabAsciiValue s maxval with
    | none => none
    | some (.error e, u) => some (.error e, u)
    | some (.ok r, s₁) =>
      match GrabAsciiValue s₁ maxval with
      | none => none
      | some (.error e, u) => some (.error e, u)
      | some (.ok g, s₂) =>
        match GrabAsciiValue s₂ maxval with
        | none => none
        | some (.error e, u) => some (.error e, u)
        | some (.ok b, s₃) =>
          (PpmAsciiAux maxval k s₃).map (consPixel (pixelPack r g b 255))

/-- `PpmAsciiLoad` (lines 530-554). -/
def PpmAsciiLoad (s : CFile) : Option LoadResult :=
  match ReadHeader s with
  | none => none
  | some (.error e, _) => some (.err e)
  | some (.ok (w, h, m), s') =>
    match PpmAsciiAux m (w * h).toNat s' with
    | none => none
    | some (.ok pix, _) => some (.ok pix w h)
    | some (.error e, _) => some (.err e)

/-- The pixel loop of `PgmAsciiLoad` (lines 567-576). -/
def PgmAsciiAux (maxval : Int) : Nat → CFile → Option (Except DecodeError (List Nat) × CFile)
  | 0, s => some (.ok [], s)
  | k + 1, s =>
    match GrabAsciiValue s maxval with
    | none => none
    | some (.error e, u) => some (.error e, u)
    | some (.ok g, s₁) =>
      (PgmAsciiAux maxval k s₁).map (consPixel (pixelPack g g g 255))

/-- `PgmAsciiLoad` (lines 556-579). -/
def PgmAsciiLoad (s : CFile) : Option LoadResult :=
  match ReadHeader s with
  | none => none
  | some (.error e, _) => some (.err e)
  | some (.ok (w, h, m), s') =>
    match PgmAsciiAux m (w * h).toNat s' with
    | none => none
    | some (.ok pix, _) => some (.ok pix w h)
    | some (.error e, _) => some (.err e)

/-- The pixel loop of `PbmAsciiLoad` (lines 590-616), with `k` the number of
pixels still needed: EOF (either the indicator or an exhausted stream) is
`UnexpectedEof`; `#` skips a comment line with the UNCHECKED loop of line
602 (divergence `none` when no newline remains); `'0'` appends white
`0xFFFFFFFF` and `'1'` black `0x000000FF`; every other byte is skipped. -/
def PbmAsciiAux : Nat → CFile → Option (Except DecodeError (List Nat) × CFile)
  | 0, s => some (.ok [], s)
  | k + 1, ⟨r, true⟩ => some (.error .UnexpectedEof, ⟨r, true⟩)
  | k + 1, ⟨[], false⟩ => some (.error .UnexpectedEof, ⟨[], true⟩)
  | k + 1, ⟨b :: t, false⟩ =>
    if b = 35 then
      match hsl : skipLineUnchecked ⟨t, false⟩ with
      | none => none
      | some s' => PbmAsciiAux (k + 1) s'
    else if b = 48 then (PbmAsciiAux k ⟨t, false⟩).map (consPixel 0xffffffff)
    else if b = 49 then (PbmAsciiAux k ⟨t, false⟩).map (consPixel 0x000000ff)
    else PbmAsciiAux (k + 1) ⟨t, false⟩
termination_by k s => (k, s.rest.length)
decreasing_by
  · apply Prod.Lex.right
    have h1 := skipLineUnchecked_length hsl
    simp at h1
    simp
    omega
  · apply Prod.Lex.left
    omega
  · apply Prod.Lex.left
    omega
  · apply Prod.Lex.right
    simp

/-- `PbmAsciiLoad` (lines 581-619). -/
def PbmAsciiLoad (s : CFile) : Option LoadResult :=
  match ReadPbmHeader s with
  | none => none
  | some (.error e, _) => some (.err e)
  | some (.ok (w, h), s') =>
    match PbmAsciiAux (w * h).toNat s' with
    | none => none
    | some (.ok pix, _) => some (.ok pix w h)
    | some (.error e, _) => some (.err e)

/-- `PnmLoad` (lines 621-673) on an already-opened stream (the `fopen`
failure path is outside the model): read the two magic bytes; a first byte
other than `'P'` or a second byte outside `'1'`-`'7'` is `InvalidMagic`
(and no loader runs, so no pixel buffer is ever produced); otherwise the
second byte alone selects the decoder.  `w₀ h₀ d₀ m₀` model the
indeterminate initial values of the caller's variables read by the PAM
path. -/
def PnmLoad (s : CFile) (w₀ h₀ d₀ m₀ : Int) : Option LoadResult :=
  let r₁ := fgetc s
  if r₁.1 ≠ 80 then some (.err .InvalidMagic)
  else
    let r₂ := fgetc r₁.2
    if r₂.1 = 49 then PbmAsciiLoad r₂.2
    else if r₂.1 = 50 then PgmAsciiLoad r₂.2
    else if r₂.1 = 51 then PpmAsciiLoad r₂.2
    else if r₂.1 = 52 then PbmRawLoad r₂.2
    else if r₂.1 = 53 then PgmRawLoad r₂.2
    else if r₂.1 = 54 then PpmRawLoad r₂.2
    else if r₂.1 = 55 then PamLoad r₂.2 w₀ h₀ d₀ m₀
    else some (.err .InvalidMagic)

/-- The width and height a `PnmLoad` call parses from the header of `s`,
obtained by running the same magic dispatch and the same header parser the
selected loader runs (`ReadPbmHeader` for P1/P4, `ReadHeader` for
P2/P3/P5/P6, `ReadPamHeader` for P7); `none` when that parse fails. -/
def PnmHeaderOf (s : CFile) (w₀ h₀ d₀ m₀ : Int) : Option (Int × Int) :=
  let r₁ := fgetc s
  if r₁.1 ≠ 80 then none
  else
    let r₂ := fgetc r₁.2
    if r₂.1 = 49 ∨ r₂.1 = 52 then
      match ReadPbmHeader r₂.2 with
      | some (.ok (w, h), _) => some (w, h)
      | _ => none
    else if r₂.1 = 50 ∨ r₂.1 = 51 ∨ r₂.1 = 53 ∨ r₂.1 = 54 then
      match ReadHeader r₂.2 with
      | some (.ok (w, h, _), _) => some (w, h)
      | _ => none
    else if r₂.1 = 55 then
      match ReadPamHeader r₂.2 w₀ h₀ d₀ m₀ with
      | some (.ok (w, h, _, _), _) => some (w, h)
      | _ => none
    else none

/-! ## Supporting lemmas -/

/-- The digit loop only accumulates: starting from a nonnegative accumulator,
a returned value is nonnegative.  (This is why the C tests `GrabInt(f) < 0`
recognize exactly the -1 error returns, modelled as `.error`.) -/
theorem GrabIntLoop_ok_nonneg : ∀ {s : CFile} {n r : Int} {u : CFile},
    GrabIntLoop s n = some (.ok r, u) → 0 ≤ n → 0 ≤ r := by
  intro s n
  induction s, n using GrabIntLoop.induct <;> intro r u h hn <;>
    rw [GrabIntLoop] at h <;> simp_all
  · rename_i b t n hsp hb hdig ih
    exact ih (by omega)
  · rename_i b t n hsp hb hdig
    rw [if_neg (by omega : ¬(48 ≤ b ∧ b ≤ 57))] at h
    simp at h

/-- A successful `GrabInt` never returns a negative value. -/
theorem GrabInt_ok_nonneg {s u : CFile} {r : Int} (h : GrabInt s = some (.ok r, u)) :
    0 ≤ r := by
  unfold GrabInt at h
  split at h
  · simp at h
  · exact GrabIntLoop_ok_nonneg h le_rfl

/-- On an exhausted stream with the EOF indicator raised, one iteration of the
PAM keyword loop reproduces exactly the same state: every keyword match fails
at once (restoring the cursor) and the unknown-token branch consumes nothing.
This is the fixed point at which `ReadPamHeaderLoop` answers `none`: the C
loop repeats this identical iteration forever. -/
theorem PamIter_stuck (w h d m : Int) :
    PamIter ⟨[], true⟩ w h d m = .more ⟨[], true⟩ w h d m := by
  simp [PamIter, FindToken, TokenMatch, TokenMatchAux, TokenTerminator, SkipToken,
    strDEPTH, strMAXVAL, strHEIGHT, strWIDTH, strENDHDR]

/-- A failed `TokenMatchAux` always ends with `fseek` back to the bookmark
`s₀` (which clears the EOF indicator). -/
theorem TokenMatchAux_false : ∀ {s₀ s : CFile} {cs : List Nat},
    (TokenMatchAux s₀ s cs).1 = false → (TokenMatchAux s₀ s cs).2 = ⟨s₀.rest, false⟩ := by
  intro s₀ s cs
  induction cs generalizing s with
  | nil =>
    intro h
    rw [TokenMatchAux] at h ⊢
    by_cases ht : (TokenTerminator s).1 <;> simp [ht] at h ⊢
  | cons ch cs ih =>
    intro h
    match s with
    | ⟨r, true⟩ => rw [TokenMatchAux]
    | ⟨[], false⟩ => rw [TokenMatchAux]
    | ⟨b :: t, false⟩ =>
      rw [TokenMatchAux] at h ⊢
      by_cases hb : b = ch
      · simp only [if_pos hb] at h ⊢
        exact ih h
      · simp [hb]

/-- A successful `TokenMatchAux` consumed exactly the keyword from the stream
and then ran `TokenTerminator` on what follows. -/
theorem TokenMatchAux_true : ∀ {s₀ s : CFile} {cs : List Nat},
    (TokenMatchAux s₀ s cs).1 = true →
    ∃ t, s.rest = cs ++ t ∧ (TokenTerminator ⟨t, s.eof⟩).1 = true ∧
      (TokenMatchAux s₀ s cs).2 = (TokenTerminator ⟨t, s.eof⟩).2 := by
  intro s₀ s cs
  induction cs generalizing s with
  | nil =>
    intro h
    rw [TokenMatchAux] at h ⊢
    by_cases ht : (TokenTerminator s).1
    · exact ⟨s.rest, rfl, ht, by simp [ht]⟩
    · simp [ht] at h
  | cons ch cs ih =>
    intro h
    match s with
    | ⟨r, true⟩ => rw [TokenMatchAux] at h; simp at h
    | ⟨[], false⟩ => rw [TokenMatchAux] at h; simp at h
    | ⟨b :: t, false⟩ =>
      rw [TokenMatchAux] at h ⊢
      by_cases hb : b = ch
      · simp only [if_pos hb] at h ⊢
        obtain ⟨t', ht', hterm, hres⟩ := ih h
        refine ⟨t', ?_, hterm, hres⟩
        simp only [hb]
        simpa using ht'
      · simp [hb] at h

theorem uint32ofInt_eq_toNat {m : Int} (h0 : 0 ≤ m) (h1 : m < 4294967296) :
    uint32ofInt m = m.toNat := by
  rw [uint32ofInt, Int.emod_eq_of_lt h0 h1]

theorem uint32ofInt_natCast {b : Nat} (hb : b < 4294967296) : uint32ofInt (b : Int) = b := by
  rw [uint32ofInt_eq_toNat (by positivity) (by exact_mod_cast hb)]
  exact Int.toNat_natCast b

/-- Splicing a value above a `k`-bit value: `a <<< k ||| b` is `a * 2^k + b`
when `b < 2^k` (the big-endian byte combination of `GrabBinValue`). -/
theorem shiftLeft_lor_eq_add {k a b : Nat} (hb : b < 2 ^ k) :
    a <<< k ||| b = a * 2 ^ k + b := by
  apply Nat.eq_of_testBit_eq
  intro i
  rw [Nat.testBit_lor, Nat.testBit_shiftLeft, Nat.mul_comm a (2 ^ k),
    Nat.testBit_mul_pow_two_add a hb i]
  by_cases hik : i < k
  · simp [hik, show ¬i ≥ k by omega]
  · have hbf : Nat.testBit b i = false :=
      Nat.testBit_lt_two_pow (lt_of_lt_of_le hb (Nat.pow_le_pow_right (by omega) (by omega)))
    simp [hik, show i ≥ k by omega, hbf]

/-- Inverting `consPixel` on a success result. -/
theorem consPixel_ok {px : Nat} {p : Except DecodeError (List Nat) × CFile}
    {pxs : List Nat} {u : CFile} (h : consPixel px p = (.ok pxs, u)) :
    ∃ pxs2, p = (.ok pxs2, u) ∧ pxs = px :: pxs2 := by
  match p with
  | (.error e, v) => simp [consPixel] at h
  | (.ok l, v) =>
    unfold consPixel at h
    simp at h
    exact ⟨l, by rw [h.2], h.1.symm⟩

/-- Inverting `consPixel` mapped over an optional result. -/
theorem map_consPixel_ok {px : Nat} {o : Option (Except DecodeError (List Nat) × CFile)}
    {pxs : List Nat} {u : CFile} (h : o.map (consPixel px) = some (.ok pxs, u)) :
    ∃ pxs2, o = some (.ok pxs2, u) ∧ pxs = px :: pxs2 := by
  rcases Option.map_eq_some'.1 h with ⟨p, ho, hc⟩
  rcases consPixel_ok hc with ⟨pxs2, hp, hpx⟩
  exact ⟨pxs2, by rw [ho, hp], hpx⟩

/-- A successful `GrayscaleLoad` of `k` pixels produces exactly `k` pixels. -/
theorem GrayscaleLoad_ok_length {m : Int} {ga : Bool} :
    ∀ {k : Nat} {s u : CFile} {pxs : List Nat},
      GrayscaleLoad m ga k s = (.ok pxs, u) → pxs.length = k := by
  intro k
  induction k with
  | zero =>
    intro s u pxs h
    rw [GrayscaleLoad] at h
    simp at h
    simp [← h.1]
  | succ k ih =>
    intro s u pxs h
    rw [GrayscaleLoad] at h
    split at h
    · simp at h
    · split at h
      · split at h
        · simp at h
        · rcases consPixel_ok h with ⟨pxs2, hp, hpx⟩
          simp [hpx, ih hp]
      · rcases consPixel_ok h with ⟨pxs2, hp, hpx⟩
        simp [hpx, ih hp]

/-- A successful `ColorLoad` of `k` pixels produces exactly `k` pixels. -/
theorem ColorLoad_ok_length {m : Int} {ga : Bool} :
    ∀ {k : Nat} {s u : CFile} {pxs : List Nat},
      ColorLoad m ga k s = (.ok pxs, u) → pxs.length = k := by
  intro k
  induction k with
  | zero =>
    intro s u pxs h
    rw [ColorLoad] at h
    simp at h
    simp [← h.1]
  | succ k ih =>
    intro s u pxs h
    rw [ColorLoad] at h
    split at h
    · simp at h
    · split at h
      · simp at h
      · split at h
        · simp at h
        · split at h
          · split at h
            · simp at h
            · rcases consPixel_ok h with ⟨pxs2, hp, hpx⟩
              simp [hpx, ih hp]
          · rcases consPixel_ok h with ⟨pxs2, hp, hpx⟩
            simp [hpx, ih hp]

/-- A successful `PbmRawAux` run for `k` pixels produces exactly `k` pixels. -/
theorem PbmRawAux_ok_length : ∀ {k i byte : Nat} {s u : CFile} {pxs : List Nat},
    PbmRawAux k i byte s = (.ok pxs, u) → pxs.length = k := by
  intro k
  induction k with
  | zero =>
    intro i byte s u pxs h
    rw [PbmRawAux] at h
    simp at h
    simp [← h.1]
  | succ k ih =>
    intro i byte s u pxs h
    rw [PbmRawAux] at h
    split at h
    · simp at h
    · rcases consPixel_ok h with ⟨pxs2, hp, hpx⟩
      simp [hpx, ih hp]

/-- A successful `PgmAsciiAux` run for `k` pixels produces exactly `k`
pixels. -/
theorem PgmAsciiAux_ok_length {m : Int} : ∀ {k : Nat} {s u : CFile} {pxs : List Nat},
    PgmAsciiAux m k s = some (.ok pxs, u) → pxs.length = k := by
  intro k
  induction k with
  | zero =>
    intro s u pxs h
    rw [PgmAsciiAux] at h
    simp at h
    simp [← h.1]
  | succ k ih =>
    intro s u pxs h
    rw [PgmAsciiAux] at h
    split at h
    · simp at h
    · simp at h
    · rcases map_consPixel_ok h with ⟨pxs2, hp, hpx⟩
      simp [hpx, ih hp]

/-- A successful `PpmAsciiAux` run for `k` pixels produces exactly `k`
pixels. -/
theorem PpmAsciiAux_ok_length {m : Int} : ∀ {k : Nat} {s u : CFile} {pxs : List Nat},
    PpmAsciiAux m k s = some (.ok pxs, u) → pxs.length = k := by
  intro k
  induction k with
  | zero =>
    intro s u pxs h
    rw [PpmAsciiAux] at h
    simp at h
    simp [← h.1]
  | succ k ih =>
    intro s u pxs h
    rw [PpmAsciiAux] at h
    split at h
    · simp at h
    · simp at h
    · split at h
      · simp at h
      · simp at h
      · split at h
        · simp at h
        · simp at h
        · rcases map_consPixel_ok h with ⟨pxs2, hp, hpx⟩
          simp [hpx, ih hp]

/-- A successful `PbmAsciiAux` run for `k` pixels produces exactly `k`
pixels. -/
theorem PbmAsciiAux_ok_length : ∀ {k : Nat} {s : CFile} {pxs : List Nat} {u : CFile},
    PbmAsciiAux k s = some (.ok pxs, u) → pxs.length = k := by
  intro k s
  induction k, s using PbmAsciiAux.induct <;> intro pxs u h <;> rw [PbmAsciiAux] at h
  · simp at h
    simp [← h.1]
  · simp at h
  · simp at h
  · rename_i k t hsl
    rw [if_pos rfl] at h
    split at h
    · simp at h
    · next s3 heq =>
      rw [hsl] at heq
      simp at heq
  · rename_i k t s2 hsl ih
    rw [if_pos rfl] at h
    split at h
    · next heq =>
      rw [hsl] at heq
      simp at heq
    · next s3 heq =>
      rw [hsl] at heq
      simp at heq
      rw [← heq] at h
      exact ih h
  · rename_i k t hb ih
    rw [if_neg hb, if_pos rfl] at h
    rcases map_consPixel_ok h with ⟨pxs2, hp, hpx⟩
    simp [hpx, ih hp]
  · rename_i k t hb h48 ih
    rw [if_neg hb, if_neg h48, if_pos rfl] at h
    rcases map_consPixel_ok h with ⟨pxs2, hp, hpx⟩
    simp [hpx, ih hp]
  · rename_i k b t hb h48 h49 ih
    rw [if_neg hb, if_neg h48, if_neg h49] at h
    exact ih h

/-- Inverting a successful loader run: the buffer has exactly the header's
pixel count and the header parser accepted.  One lemma per loader. -/
theorem PgmRawLoad_ok {s : CFile} {pix : List Nat} {w h : Int}
    (hl : PgmRawLoad s = some (.ok pix w h)) :
    pix.length = (w * h).toNat ∧ ∃ m u, ReadHeader s = some (.ok (w, h, m), u) := by
  unfold PgmRawLoad at hl
  split at hl
  · simp at hl
  · simp at hl
  · rename_i w2 h2 m2 s2 heq
    split at hl
    · rename_i pxs u2 heq2
      simp at hl
      obtain ⟨hp, hw, hh⟩ := hl
      subst hw
      subst hh
      exact ⟨by rw [← hp]; exact GrayscaleLoad_ok_length heq2, m2, s2, heq⟩
    · simp at hl

theorem PpmRawLoad_ok {s : CFile} {pix : List Nat} {w h : Int}
    (hl : PpmRawLoad s = some (.ok pix w h)) :
    pix.length = (w * h).toNat ∧ ∃ m u, ReadHeader s = some (.ok (w, h, m), u) := by
  unfold PpmRawLoad at hl
  split at hl
  · simp at hl
  · simp at hl
  · rename_i w2 h2 m2 s2 heq
    split at hl
    · rename_i pxs u2 heq2
      simp at hl
      obtain ⟨hp, hw, hh⟩ := hl
      subst hw
      subst hh
      exact ⟨by rw [← hp]; exact ColorLoad_ok_length heq2, m2, s2, heq⟩
    · simp at hl

theorem PbmRawLoad_ok {s : CFile} {pix : List Nat} {w h : Int}
    (hl : PbmRawLoad s = some (.ok pix w h)) :
    pix.length = (w * h).toNat ∧ ∃ u, ReadPbmHeader s = some (.ok (w, h), u) := by
  unfold PbmRawLoad at hl
  split at hl
  · simp at hl
  · simp at hl
  · rename_i w2 h2 s2 heq
    split at hl
    · rename_i pxs u2 heq2
      simp at hl
      obtain ⟨hp, hw, hh⟩ := hl
      subst hw
      subst hh
      exact ⟨by rw [← hp]; exact PbmRawAux_ok_length heq2, s2, heq⟩
    · simp at hl

theorem PgmAsciiLoad_ok {s : CFile} {pix : List Nat} {w h : Int}
    (hl : PgmAsciiLoad s = some (.ok pix w h)) :
    pix.length = (w * h).toNat ∧ ∃ m u, ReadHeader s = some (.ok (w, h, m), u) := by
  unfold PgmAsciiLoad at hl
  split at hl
  · simp at hl
  · simp at hl
  · rename_i w2 h2 m2 s2 heq
    split at hl
    · simp at hl
    · rename_i pxs u2 heq2
      simp at hl
      obtain ⟨hp, hw, hh⟩ := hl
      subst hw
      subst hh
      exact ⟨by rw [← hp]; exact PgmAsciiAux_ok_length heq2, m2, s2, heq⟩
    · simp at hl

theorem PpmAsciiLoad_ok {s : CFile} {pix : List Nat} {w h : Int}
    (hl : PpmAsciiLoad s = some (.ok pix w h)) :
    pix.length = (w * h).toNat ∧ ∃ m u, ReadHeader s = some (.ok (w, h, m), u) := by
  unfold PpmAsciiLoad at hl
  split at hl
  · simp at hl
  · simp at hl
  · rename_i w2 h2 m2 s2 heq
    split at hl
    · simp at hl
    · rename_i pxs u2 heq2
      simp at hl
      obtain ⟨hp, hw, hh⟩ := hl
      subst hw
      subst hh
      exact ⟨by rw [← hp]; exact PpmAsciiAux_ok_length heq2, m2, s2, heq⟩
    · simp at hl

theorem PbmAsciiLoad_ok {s : CFile} {pix : List Nat} {w h : Int}
    (hl : PbmAsciiLoad s = some (.ok pix w h)) :
    pix.length = (w * h).toNat ∧ ∃ u, ReadPbmHeader s = some (.ok (w, h), u) := by
  unfold PbmAsciiLoad at hl
  split at hl
  · simp at hl
  · simp at hl
  · rename_i w2 h2 s2 heq
    split at hl
    · simp at hl
    · rename_i pxs u2 heq2
      simp at hl
      obtain ⟨hp, hw, hh⟩ := hl
      subst hw
      subst hh
      exact ⟨by rw [← hp]; exact PbmAsciiAux_ok_length heq2, s2, heq⟩
    · simp at hl

theorem PamLoad_ok {s : CFile} {w₀ h₀ d₀ m₀ : Int} {pix : List Nat} {w h : Int}
    (hl : PamLoad s w₀ h₀ d₀ m₀ = some (.ok pix w h)) :
    pix.length = (w * h).toNat ∧
      ∃ d m u, ReadPamHeader s w₀ h₀ d₀ m₀ = some (.ok (w, h, d, m), u) := by
  unfold PamLoad at hl
  split at hl
  · simp at hl
  · simp at hl
  · rename_i w2 h2 d2 m2 s2 heq
    by_cases hd1 : d2 = 1
    · rw [if_pos hd1] at hl
      split at hl
      · rename_i pxs u2 heq2
        simp at hl
        obtain ⟨hp, hw, hh⟩ := hl
        subst hw
        subst hh
        exact ⟨by rw [← hp]; exact GrayscaleLoad_ok_length heq2, d2, m2, s2, heq⟩
      · simp at hl
    · rw [if_neg hd1] at hl
      by_cases hd2 : d2 = 2
      · rw [if_pos hd2] at hl
        split at hl
        · rename_i pxs u2 heq2
          simp at hl
          obtain ⟨hp, hw, hh⟩ := hl
          subst hw
          subst hh
          exact ⟨by rw [← hp]; exact GrayscaleLoad_ok_length heq2, d2, m2, s2, heq⟩
        · simp at hl
      · rw [if_neg hd2] at hl
        by_cases hd3 : d2 = 3
        · rw [if_pos hd3] at hl
          split at hl
          · rename_i pxs u2 heq2
            simp at hl
            obtain ⟨hp, hw, hh⟩ := hl
            subst hw
            subst hh
            exact ⟨by rw [← hp]; exact ColorLoad_ok_length heq2, d2, m2, s2, heq⟩
          · simp at hl
        · rw [if_neg hd3] at hl
          by_cases hd4 : d2 = 4
          · rw [if_pos hd4] at hl
            split at hl
            · rename_i pxs u2 heq2
              simp at hl
              obtain ⟨hp, hw, hh⟩ := hl
              subst hw
              subst hh
              exact ⟨by rw [← hp]; exact ColorLoad_ok_length heq2, d2, m2, s2, heq⟩
            · simp at hl
          · rw [if_neg hd4] at hl
            simp at hl
            obtain ⟨hp, hw, hh⟩ := hl
            subst hw
            subst hh
            exact ⟨by rw [← hp]; simp, d2, m2, s2, heq⟩

/-! ## Claim theorems -/

/-- Claim C7: for every input stream, decoding fails with `InvalidMagic` —
no loader runs, so no pixel buffer is ever produced — when the first byte is
not `'P'` (80), including an empty stream, or when the second byte is not an
ASCII digit `'1'`-`'7'` (49-55); with a valid magic the second byte alone
selects the decoder: `'1'` PBM-ASCII, `'2'` PGM-ASCII, `'3'` PPM-ASCII,
`'4'` PBM-raw, `'5'` PGM-raw, `'6'` PPM-raw, `'7'` PAM. -/
theorem magic_dispatch (b b₂ : Nat) (r : List Nat) (w₀ h₀ d₀ m₀ : Int) :
    (b ≠ 80 → PnmLoad ⟨b :: r, false⟩ w₀ h₀ d₀ m₀ = some (.err .InvalidMagic)) ∧
    PnmLoad ⟨[], false⟩ w₀ h₀ d₀ m₀ = some (.err .InvalidMagic) ∧
    ((b₂ < 49 ∨ 55 < b₂) →
      PnmLoad ⟨80 :: b₂ :: r, false⟩ w₀ h₀ d₀ m₀ = some (.err .InvalidMagic)) ∧
    PnmLoad ⟨80 :: 49 :: r, false⟩ w₀ h₀ d₀ m₀ = PbmAsciiLoad ⟨r, false⟩ ∧
    PnmLoad ⟨80 :: 50 :: r, false⟩ w₀ h₀ d₀ m₀ = PgmAsciiLoad ⟨r, false⟩ ∧
    PnmLoad ⟨80 :: 51 :: r, false⟩ w₀ h₀ d₀ m₀ = PpmAsciiLoad ⟨r, false⟩ ∧
    PnmLoad ⟨80 :: 52 :: r, false⟩ w₀ h₀ d₀ m₀ = PbmRawLoad ⟨r, false⟩ ∧
    PnmLoad ⟨80 :: 53 :: r, false⟩ w₀ h₀ d₀ m₀ = PgmRawLoad ⟨r, false⟩ ∧
    PnmLoad ⟨80 :: 54 :: r, false⟩ w₀ h₀ d₀ m₀ = PpmRawLoad ⟨r, false⟩ ∧
    PnmLoad ⟨80 :: 55 :: r, false⟩ w₀ h₀ d₀ m₀ = PamLoad ⟨r, false⟩ w₀ h₀ d₀ m₀ := by
  refine ⟨?_, ?_, ?_, ?_, ?_, ?_, ?_, ?_, ?_, ?_⟩
  · intro hb
    have hb' : ((b : Int)) ≠ 80 := by exact_mod_cast hb
    simp [PnmLoad, fgetc, hb']
  · simp [PnmLoad, fgetc]
  · intro hb
    have c49 : ((b₂ : Int)) ≠ 49 := by omega
    have c50 : ((b₂ : Int)) ≠ 50 := by omega
    have c51 : ((b₂ : Int)) ≠ 51 := by omega
    have c52 : ((b₂ : Int)) ≠ 52 := by omega
    have c53 : ((b₂ : Int)) ≠ 53 := by omega
    have c54 : ((b₂ : Int)) ≠ 54 := by omega
    have c55 : ((b₂ : Int)) ≠ 55 := by omega
    simp [PnmLoad, fgetc, c49, c50, c51, c52, c53, c54, c55]
  all_goals simp [PnmLoad, fgetc]

/-- Witness for C7 at the concrete two-byte file `P9`. -/
theorem magic_dispatch_witness :
    PnmLoad ⟨[80, 57], false⟩ 0 0 0 0 = some (.err .InvalidMagic) :=
  (magic_dispatch 80 57 [] 0 0 0 0).2.2.1 (by decide)

/-- Claim C8: when `TokenMatch` fails — a byte of the word mismatches, the
stream ends inside the word, or the word is not followed by a token
terminator — the cursor is restored to exactly its pre-attempt position (the
byte list is the entry byte list again; the restoring `fseek` clears the EOF
indicator), so no partial consumption is observable.  When it succeeds, the
word and its terminator are consumed: the entry stream had the word as a
prefix and the final state is the state after `TokenTerminator` consumed the
terminator following the word. -/
theorem tokenMatch_cursor (s : CFile) (str : List Nat) :
    ((TokenMatch s str).1 = false → (TokenMatch s str).2 = ⟨s.rest, false⟩) ∧
    ((TokenMatch s str).1 = true → ∃ t, s.rest = str ++ t ∧
      (TokenTerminator ⟨t, s.eof⟩).1 = true ∧
      (TokenMatch s str).2 = (TokenTerminator ⟨t, s.eof⟩).2) :=
  ⟨fun h => TokenMatchAux_false h, fun h => TokenMatchAux_true h⟩

/-- Witness for C8: a failing attempt (`WID…` against `DEPTH`) restores the
cursor; a succeeding attempt (`DEPTH X`) consumes the word and the space. -/
theorem tokenMatch_cursor_witness :
    (TokenMatch ⟨[87, 73, 68], false⟩ strDEPTH).2 = ⟨[87, 73, 68], false⟩ ∧
    ∃ t, ([68, 69, 80, 84, 72, 32, 88] : List Nat) = strDEPTH ++ t ∧
      (TokenTerminator ⟨t, false⟩).1 = true ∧
      (TokenMatch ⟨[68, 69, 80, 84, 72, 32, 88], false⟩ strDEPTH).2 =
        (TokenTerminator ⟨t, false⟩).2 :=
  ⟨(tokenMatch_cursor ⟨[87, 73, 68], false⟩ strDEPTH).1 (by decide),
   (tokenMatch_cursor ⟨[68, 69, 80, 84, 72, 32, 88], false⟩ strDEPTH).2 (by decide)⟩

/-- Claim C9 (refuted — evaluation at the claim's own example inputs): on
`P1 1 1#` (the stream ends inside a comment immediately after the height
integer, exercising line 126) and on `P1 1 1 #` (the stream ends inside a
comment in PBM-ASCII pixel data, exercising line 602) the decoder never
returns: the unchecked newline loops read EOF forever (`none`).  The
comment loops at lines 49 and 63 do guard with `feof`; the two unguarded
ones contradict them. -/
theorem decode_diverges_on_unterminated_comment :
    PnmLoad ⟨[80, 49, 32, 49, 32, 49, 35], false⟩ 0 0 0 0 = none ∧
    PnmLoad ⟨[80, 49, 32, 49, 32, 49, 32, 35], false⟩ 0 0 0 0 = none := by
  constructor <;>
    simp [PnmLoad, PbmAsciiLoad, ReadPbmHeader, GrabInt, GrabIntLoop, FindToken,
      isspace, skipLineUnchecked, dropLine, fgetc, PbmAsciiAux]

/-- Claim C1 (refuted): a PBM-raw 4x4 file truncated by one byte before its
last sample decodes *successfully*: at the second byte boundary `feof` is
still false (the previous byte was read without touching the end), `fgetc`
returns -1, and `byte = (uint8_t)(-1) = 0xFF` paints the last 8 pixels
black instead of failing with `UnexpectedEof`.  A PGM-raw 1x2 file truncated
before its last sample fails — but with the pixel-greater-than-maxval error
(`RangeExceeded`), because `*dest = fgetc(f)` stores `(uint32_t)(-1)`, not
with `UnexpectedEof` as claimed. -/
theorem raw_truncation_not_eof :
    PnmLoad ⟨[80, 52, 32, 52, 32, 52, 10, 0], false⟩ 0 0 0 0 =
      some (.ok [4294967295, 4294967295, 4294967295, 4294967295, 4294967295,
        4294967295, 4294967295, 4294967295, 255, 255, 255, 255, 255, 255, 255, 255] 4 4) ∧
    PnmLoad ⟨[80, 53, 32, 49, 32, 50, 32, 50, 53, 53, 10, 128], false⟩ 0 0 0 0 =
      some (.err .RangeExceeded) := by
  constructor <;>
    simp [PnmLoad, PbmRawLoad, PgmRawLoad, ReadPbmHeader, ReadHeader, GrabInt,
      GrabIntLoop, FindToken, isspace, fgetc, PbmRawAux, PbmRawRead, consPixel, GrayscaleLoad,
      GrabBinValue, GrabBinFinish, uint32ofInt, pixelPack, Nat.testBit,
      Nat.shiftRight_eq_div_pow]

/-- Claim C3: every gray/color sample with value s under declared maxval m is
stored as the channel byte `s * 255 / m` (floor): for binary 1-byte samples
(`m ≤ 255`), for binary 2-byte big-endian samples (`m > 255`, value
`b₁*256 + b₂`), and for ASCII samples; in particular the 1x1 PGM-raw file
with maxval 255 and data byte 0x80 decodes to the single pixel `0x808080FF`,
and with maxval 1 and sample 1 to `0xFFFFFFFF`. -/
theorem sample_scaling (m n : Int) (b₁ b₂ : Nat) (t : List Nat) (s u : CFile) :
    (1 ≤ m → m ≤ 255 → b₁ < 256 → (b₁ : Int) ≤ m →
      GrabBinValue ⟨b₁ :: t, false⟩ m = (.ok (b₁ * 255 / m.toNat), ⟨t, false⟩)) ∧
    (256 ≤ m → m ≤ 65535 → b₁ < 256 → b₂ < 256 → ((b₁ * 256 + b₂ : Nat) : Int) ≤ m →
      GrabBinValue ⟨b₁ :: b₂ :: t, false⟩ m =
        (.ok ((b₁ * 256 + b₂) * 255 / m.toNat), ⟨t, false⟩)) ∧
    (GrabInt s = some (.ok n, u) → 1 ≤ m → m ≤ 65535 → n ≤ m →
      GrabAsciiValue s m = some (.ok (n.toNat * 255 / m.toNat), u)) ∧
    PnmLoad ⟨[80, 53, 32, 49, 32, 49, 32, 50, 53, 53, 10, 128], false⟩ 0 0 0 0 =
      some (.ok [0x808080ff] 1 1) ∧
    PnmLoad ⟨[80, 53, 32, 49, 32, 49, 32, 49, 10, 1], false⟩ 0 0 0 0 =
      some (.ok [0xffffffff] 1 1) := by
  refine ⟨?_, ?_, ?_, ?_, ?_⟩
  · intro h1 h2 h3 h4
    have hm : uint32ofInt m = m.toNat := uint32ofInt_eq_toNat (by omega) (by omega)
    have hb : uint32ofInt (b₁ : Int) = b₁ := uint32ofInt_natCast (by omega)
    have hnogt : ¬b₁ > m.toNat := by omega
    have hm255 : ¬m > 255 := by omega
    have hmod : b₁ * 255 % 4294967296 = b₁ * 255 := Nat.mod_eq_of_lt (by omega)
    simp [GrabBinValue, fgetc, GrabBinFinish, hm, hb, hnogt, hm255, hmod]
  · intro h1 h2 h3 h4 h5
    have hb1 : uint32ofInt (b₁ : Int) = b₁ := uint32ofInt_natCast (by omega)
    have hb2 : uint32ofInt (b₂ : Int) = b₂ := uint32ofInt_natCast (by omega)
    have hm : uint32ofInt m = m.toNat := uint32ofInt_eq_toNat (by omega) (by omega)
    have hcomb : b₁ <<< 8 % 4294967296 ||| b₂ = b₁ * 256 + b₂ := by
      rw [Nat.mod_eq_of_lt (by rw [Nat.shiftLeft_eq]; omega),
        shiftLeft_lor_eq_add (show b₂ < 2 ^ 8 by omega)]
      norm_num
    have hmgt : m > 255 := by omega
    have hnogt : ¬b₁ * 256 + b₂ > m.toNat := by omega
    have hmod : (b₁ * 256 + b₂) * 255 % 4294967296 = (b₁ * 256 + b₂) * 255 :=
      Nat.mod_eq_of_lt (by omega)
    simp [GrabBinValue, fgetc, GrabBinFinish, hb1, hb2, hm, hcomb, hmgt, hnogt, hmod]
  · intro hg h1 h2 h3
    have hn := GrabInt_ok_nonneg hg
    have h4 : ¬n > m := by omega
    have hnn : uint32ofInt n = n.toNat := uint32ofInt_eq_toNat hn (by omega)
    have hm : uint32ofInt m = m.toNat := uint32ofInt_eq_toNat (by omega) (by omega)
    have hmod : n.toNat * 255 % 4294967296 = n.toNat * 255 := Nat.mod_eq_of_lt (by omega)
    simp [GrabAsciiValue, hg, h4, hnn, hm, hmod]
  · simp [PnmLoad, PgmRawLoad, ReadHeader, GrabInt, GrabIntLoop, FindToken, isspace,
      fgetc, GrayscaleLoad, GrabBinValue, GrabBinFinish, uint32ofInt, pixelPack, consPixel]
  · simp [PnmLoad, PgmRawLoad, ReadHeader, GrabInt, GrabIntLoop, FindToken, isspace,
      fgetc, GrayscaleLoad, GrabBinValue, GrabBinFinish, uint32ofInt, pixelPack, consPixel]

/-- Witness for C3: a 1-byte binary sample (128 under maxval 255), a 2-byte
binary sample (300 under maxval 300) and an ASCII sample (`50 ` under maxval
100), each scaled by `s * 255 / m`. -/
theorem sample_scaling_witness :
    GrabBinValue ⟨[128], false⟩ 255 = (.ok 128, ⟨[], false⟩) ∧
    GrabBinValue ⟨[1, 44], false⟩ 300 = (.ok 255, ⟨[], false⟩) ∧
    GrabAsciiValue ⟨[53, 48, 32], false⟩ 100 = some (.ok 127, ⟨[], false⟩) := by
  refine ⟨?_, ?_, ?_⟩
  · have := (sample_scaling 255 0 128 0 [] ⟨[], false⟩ ⟨[], false⟩).1
      (by norm_num) (by norm_num) (by norm_num) (by norm_num)
    simpa using this
  · have := (sample_scaling 300 0 1 44 [] ⟨[], false⟩ ⟨[], false⟩).2.1
      (by norm_num) (by norm_num) (by norm_num) (by norm_num) (by norm_num)
    simpa using this
  · have hg : GrabInt ⟨[53, 48, 32], false⟩ = some (.ok 50, ⟨[], false⟩) := by
      simp [GrabInt, GrabIntLoop, FindToken, isspace]
    have := (sample_scaling 100 50 0 0 [] ⟨[53, 48, 32], false⟩ ⟨[], false⟩).2.2.1
      hg (by norm_num) (by norm_num) (by norm_num)
    simpa using this

/-- Claim C5: for every PAM header whose keyword loop terminates at
`ENDHDR` with parsed fields (w, h, d, m), decoding fails with `InvalidRange`
whenever the depth is outside 1..4, fails with `InvalidRange` whenever the
maxval is outside 1..65535, and fails (the first failing check is
`InvalidRange` or `InvalidDimension`) whenever width < 1 or height < 1; in
every such case only an error — never a pixel buffer — is returned. -/
theorem pam_header_validation (s s' : CFile) (w₀ h₀ d₀ m₀ w h d m : Int)
    (hloop : ReadPamHeaderLoop s w₀ h₀ d₀ m₀ = some (.ok (w, h, d, m), s')) :
    ((d < 1 ∨ 4 < d) → PamLoad s w₀ h₀ d₀ m₀ = some (.err .InvalidRange)) ∧
    ((m < 1 ∨ 65535 < m) → PamLoad s w₀ h₀ d₀ m₀ = some (.err .InvalidRange)) ∧
    (w < 1 → ∃ e, PamLoad s w₀ h₀ d₀ m₀ = some (.err e)) ∧
    (h < 1 → ∃ e, PamLoad s w₀ h₀ d₀ m₀ = some (.err e)) := by
  refine ⟨?_, ?_, ?_, ?_⟩
  · intro hd
    simp [PamLoad, ReadPamHeader, hloop, hd]
  · intro hm
    by_cases hd : d < 1 ∨ 4 < d
    · simp [PamLoad, ReadPamHeader, hloop, hd]
    · simp [PamLoad, ReadPamHeader, hloop, hd, hm]
  · intro hw
    by_cases hd : d < 1 ∨ 4 < d
    · exact ⟨.InvalidRange, by simp [PamLoad, ReadPamHeader, hloop, hd]⟩
    · by_cases hm : m < 1 ∨ 65535 < m
      · exact ⟨.InvalidRange, by simp [PamLoad, ReadPamHeader, hloop, hd, hm]⟩
      · exact ⟨.InvalidDimension, by simp [PamLoad, ReadPamHeader, hloop, hd, hm, hw]⟩
  · intro hh
    by_cases hd : d < 1 ∨ 4 < d
    · exact ⟨.InvalidRange, by simp [PamLoad, ReadPamHeader, hloop, hd]⟩
    · by_cases hm : m < 1 ∨ 65535 < m
      · exact ⟨.InvalidRange, by simp [PamLoad, ReadPamHeader, hloop, hd, hm]⟩
      · by_cases hw : w < 1
        · exact ⟨.InvalidDimension, by simp [PamLoad, ReadPamHeader, hloop, hd, hm, hw]⟩
        · exact ⟨.InvalidDimension, by simp [PamLoad, ReadPamHeader, hloop, hd, hm, hw, hh]⟩

/-- Witness for C5: the PAM header `WIDTH 1 HEIGHT 1 DEPTH 5 MAXVAL 255
ENDHDR` parses, its depth 5 is outside 1..4, and decoding fails with
`InvalidRange`. -/
theorem pam_header_validation_witness :
    PamLoad ⟨[87, 73, 68, 84, 72, 32, 49, 32,
              72, 69, 73, 71, 72, 84, 32, 49, 32,
              68, 69, 80, 84, 72, 32, 53, 32,
              77, 65, 88, 86, 65, 76, 32, 50, 53, 53, 32,
              69, 78, 68, 72, 68, 82, 10], false⟩ 0 0 0 0 =
      some (.err .InvalidRange) := by
  have hloop : ReadPamHeaderLoop ⟨[87, 73, 68, 84, 72, 32, 49, 32,
      72, 69, 73, 71, 72, 84, 32, 49, 32,
      68, 69, 80, 84, 72, 32, 53, 32,
      77, 65, 88, 86, 65, 76, 32, 50, 53, 53, 32,
      69, 78, 68, 72, 68, 82, 10], false⟩ 0 0 0 0 =
      some (.ok (1, 1, 5, 255), ⟨[], false⟩) := by
    simp [ReadPamHeaderLoop, PamIter, TokenMatch, TokenMatchAux, TokenTerminator,
      FindToken, SkipToken, GrabInt, GrabIntLoop, isspace, skipCommentChecked,
      skipLineUnchecked, dropLine, fgetc, strDEPTH, strMAXVAL, strHEIGHT, strWIDTH,
      strENDHDR]
  exact (pam_header_validation _ _ 0 0 0 0 1 1 5 255 hloop).1 (by norm_num)

/-- Claim C2: whenever `PnmLoad` succeeds (header parsed and validated,
pixel data well-formed), the returned buffer holds exactly `width*height`
32-bit pixels and the width and height reported to the caller are exactly
the values the selected header parser extracted from the stream
(`PnmHeaderOf` re-runs that parser). -/
theorem decode_buffer_size (s : CFile) (w₀ h₀ d₀ m₀ : Int) (pix : List Nat) (w h : Int)
    (hok : PnmLoad s w₀ h₀ d₀ m₀ = some (.ok pix w h)) :
    pix.length = (w * h).toNat ∧ PnmHeaderOf s w₀ h₀ d₀ m₀ = some (w, h) := by
  simp only [PnmLoad] at hok
  simp only [PnmHeaderOf]
  by_cases h80 : (fgetc s).1 = 80
  case neg =>
    rw [if_pos (by simpa using h80)] at hok
    simp at hok
  rw [if_neg (by simpa using not_not_intro h80)] at hok
  rw [if_neg (by simpa using not_not_intro h80)]
  by_cases h1 : (fgetc (fgetc s).2).1 = 49
  · rw [if_pos h1] at hok
    rcases PbmAsciiLoad_ok hok with ⟨hlen, u, hhd⟩
    rw [if_pos (Or.inl h1), hhd]
    exact ⟨hlen, rfl⟩
  · rw [if_neg h1] at hok
    by_cases h2 : (fgetc (fgetc s).2).1 = 50
    · rw [if_pos h2] at hok
      rcases PgmAsciiLoad_ok hok with ⟨hlen, m, u, hhd⟩
      rw [if_neg (by simp [h2]), if_pos (Or.inl h2), hhd]
      exact ⟨hlen, rfl⟩
    · rw [if_neg h2] at hok
      by_cases h3 : (fgetc (fgetc s).2).1 = 51
      · rw [if_pos h3] at hok
        rcases PpmAsciiLoad_ok hok with ⟨hlen, m, u, hhd⟩
        rw [if_neg (by simp [h3]), if_pos (Or.inr (Or.inl h3)), hhd]
        exact ⟨hlen, rfl⟩
      · rw [if_neg h3] at hok
        by_cases h4 : (fgetc (fgetc s).2).1 = 52
        · rw [if_pos h4] at hok
          rcases PbmRawLoad_ok hok with ⟨hlen, u, hhd⟩
          rw [if_pos (Or.inr h4), hhd]
          exact ⟨hlen, rfl⟩
        · rw [if_neg h4] at hok
          by_cases h5 : (fgetc (fgetc s).2).1 = 53
          · rw [if_pos h5] at hok
            rcases PgmRawLoad_ok hok with ⟨hlen, m, u, hhd⟩
            rw [if_neg (by simp [h5]), if_pos (Or.inr (Or.inr (Or.inl h5))), hhd]
            exact ⟨hlen, rfl⟩
          · rw [if_neg h5] at hok
            by_cases h6 : (fgetc (fgetc s).2).1 = 54
            · rw [if_pos h6] at hok
              rcases PpmRawLoad_ok hok with ⟨hlen, m, u, hhd⟩
              rw [if_neg (by simp [h6]), if_pos (Or.inr (Or.inr (Or.inr h6))), hhd]
              exact ⟨hlen, rfl⟩
            · rw [if_neg h6] at hok
              by_cases h7 : (fgetc (fgetc s).2).1 = 55
              · rw [if_pos h7] at hok
                rcases PamLoad_ok hok with ⟨hlen, d, m, u, hhd⟩
                rw [if_neg (by simp [h7]), if_neg (by simp [h7]), if_pos h7, hhd]
                exact ⟨hlen, rfl⟩
              · rw [if_neg h7] at hok
                simp at hok


/-- Witness for C2 at a concrete 1x1 PGM-raw file. -/
theorem decode_buffer_size_witness :
    ([0x808080ff] : List Nat).length = ((1 * 1 : Int)).toNat ∧
    PnmHeaderOf ⟨[80, 53, 32, 49, 32, 49, 32, 50, 53, 53, 10, 128], false⟩ 0 0 0 0 =
      some (1, 1) :=
  decode_buffer_size ⟨[80, 53, 32, 49, 32, 49, 32, 50, 53, 53, 10, 128], false⟩ 0 0 0 0
    [0x808080ff] 1 1
    (by simp [PnmLoad, PgmRawLoad, ReadHeader, GrabInt, GrabIntLoop, FindToken, isspace,
      fgetc, GrayscaleLoad, GrabBinValue, GrabBinFinish, uint32ofInt, pixelPack, consPixel])

theorem pbm_ascii_bits (ds r : List Nat) (hds : ∀ b ∈ ds, b = 48 ∨ b = 49) :
    PbmAsciiAux ds.length ⟨ds ++ r, false⟩ =
      some (.ok (ds.map (fun b => if b = 49 then 0x000000ff else 0xffffffff)), ⟨r, false⟩) := by
  induction ds with
  | nil => simp [PbmAsciiAux]
  | cons b ds ih =>
    have hb := hds b (by simp)
    have hds' : ∀ c ∈ ds, c = 48 ∨ c = 49 := fun c hc => hds c (by simp [hc])
    rcases hb with hb | hb <;> subst hb
    · simp only [List.cons_append, List.length_cons]
      rw [PbmAsciiAux, if_neg (by decide), if_pos rfl, ih hds']
      simp [consPixel]
    · simp only [List.cons_append, List.length_cons]
      rw [PbmAsciiAux, if_neg (by decide), if_neg (by decide), if_pos rfl, ih hds']
      simp [consPixel]

theorem pbm_ascii_skips (xs r : List Nat) (hxs : ∀ b ∈ xs, b ≠ 35) :
    ∃ u, PbmAsciiAux (xs.filter (fun b => b = 48 || b = 49)).length ⟨xs ++ r, false⟩ =
      some (.ok ((xs.filter (fun b => b = 48 || b = 49)).map
        (fun b => if b = 49 then 0x000000ff else 0xffffffff)), u) := by
  induction xs with
  | nil => exact ⟨⟨r, false⟩, by simp [PbmAsciiAux]⟩
  | cons b xs ih =>
    have hb35 : b ≠ 35 := hxs b (by simp)
    have hxs' : ∀ c ∈ xs, c ≠ 35 := fun c hc => hxs c (by simp [hc])
    obtain ⟨u, hu⟩ := ih hxs'
    by_cases hb48 : b = 48
    · subst hb48
      refine ⟨u, ?_⟩
      have hf : (48 :: xs).filter (fun c => c = 48 || c = 49) =
          48 :: xs.filter (fun c => c = 48 || c = 49) := by
        simp [List.filter_cons]
      rw [hf, List.length_cons]
      simp only [List.cons_append, List.map_cons]
      rw [PbmAsciiAux, if_neg (by decide), if_pos rfl, hu]
      simp [consPixel]
    · by_cases hb49 : b = 49
      · subst hb49
        refine ⟨u, ?_⟩
        have hf : (49 :: xs).filter (fun c => c = 48 || c = 49) =
            49 :: xs.filter (fun c => c = 48 || c = 49) := by
          simp [List.filter_cons]
        rw [hf, List.length_cons]
        simp only [List.cons_append, List.map_cons]
        rw [PbmAsciiAux, if_neg (by decide), if_neg (by decide), if_pos rfl, hu]
        simp [consPixel]
      · have hf : (b :: xs).filter (fun c => c = 48 || c = 49) =
            xs.filter (fun c => c = 48 || c = 49) := by
          simp [List.filter_cons, hb48, hb49]
        rw [hf]
        rcases hk : (xs.filter (fun c => c = 48 || c = 49)).length with _ | k
        · refine ⟨⟨b :: (xs ++ r), false⟩, ?_⟩
          rw [List.length_eq_zero.1 hk]
          simp [PbmAsciiAux]
        · refine ⟨u, ?_⟩
          rw [hk] at hu ⊢
          simp only [List.cons_append]
          rw [PbmAsciiAux, if_neg hb35, if_neg hb48, if_neg hb49]
          exact hu

theorem PbmRawRead_shift (i byte : Nat) (s : CFile) :
    PbmRawRead (i + 8) byte s = PbmRawRead i byte s := by
  simp [PbmRawRead, Nat.add_mod_right]

theorem PbmRawAux_shift : ∀ (k i byte : Nat) (s : CFile),
    PbmRawAux k (i + 8) byte s = PbmRawAux k i byte s := by
  intro k
  induction k with
  | zero => intro i byte s; rw [PbmRawAux, PbmRawAux]
  | succ k ih =>
    intro i byte s
    rw [PbmRawAux, PbmRawAux, PbmRawRead_shift]
    cases hr : PbmRawRead i byte s with
    | none => rfl
    | some p =>
      obtain ⟨byte2, s2⟩ := p
      rw [Nat.add_mod_right]
      dsimp only
      rw [show i + 8 + 1 = (i + 1) + 8 by omega, ih]

theorem PbmRawAux_byte_irrel (k b b2 : Nat) (s : CFile) :
    PbmRawAux k 0 b s = PbmRawAux k 0 b2 s := by
  cases k with
  | zero => rw [PbmRawAux, PbmRawAux]
  | succ k =>
    rw [PbmRawAux, PbmRawAux]
    rw [show PbmRawRead 0 b s = PbmRawRead 0 b2 s by simp [PbmRawRead]]

theorem PbmRawAux_peel8 (k b : Nat) (bs : List Nat) :
    PbmRawAux (8 + k) 0 0 ⟨b :: bs, false⟩ =
      match PbmRawAux k 0 0 ⟨bs, false⟩ with
      | (.ok pxs, u) => (.ok (((List.range 8).map (fun t =>
          if Nat.testBit (b % 256) (7 - t) then (0x000000ff : Nat) else 0xffffffff)) ++ pxs), u)
      | r => r := by
  rw [show 8 + k = (7 + k).succ by omega, PbmRawAux.eq_2]
  rw [show PbmRawRead 0 0 (⟨b :: bs, false⟩ : CFile) = some (b % 256, ⟨bs, false⟩) by simp [PbmRawRead]]
  dsimp only
  rw [show 7 + k = (6 + k).succ by omega, PbmRawAux.eq_2]
  rw [show PbmRawRead (1) (b % 256) (⟨bs, false⟩ : CFile) = some (b % 256, ⟨bs, false⟩) by simp [PbmRawRead]]
  dsimp only
  rw [show 6 + k = (5 + k).succ by omega, PbmRawAux.eq_2]
  rw [show PbmRawRead (2) (b % 256) (⟨bs, false⟩ : CFile) = some (b % 256, ⟨bs, false⟩) by simp [PbmRawRead]]
  dsimp only
  rw [show 5 + k = (4 + k).succ by omega, PbmRawAux.eq_2]
  rw [show PbmRawRead (3) (b % 256) (⟨bs, false⟩ : CFile) = some (b % 256, ⟨bs, false⟩) by simp [PbmRawRead]]
  dsimp only
  rw [show 4 + k = (3 + k).succ by omega, PbmRawAux.eq_2]
  rw [show PbmRawRead (4) (b % 256) (⟨bs, false⟩ : CFile) = some (b % 256, ⟨bs, false⟩) by simp [PbmRawRead]]
  dsimp only
  rw [show 3 + k = (2 + k).succ by omega, PbmRawAux.eq_2]
  rw [show PbmRawRead (5) (b % 256) (⟨bs, false⟩ : CFile) = some (b % 256, ⟨bs, false⟩) by simp [PbmRawRead]]
  dsimp only
  rw [show 2 + k = (1 + k).succ by omega, PbmRawAux.eq_2]
  rw [show PbmRawRead (6) (b % 256) (⟨bs, false⟩ : CFile) = some (b % 256, ⟨bs, false⟩) by simp [PbmRawRead]]
  dsimp only
  rw [show 1 + k = (0 + k).succ by omega, PbmRawAux.eq_2]
  rw [show PbmRawRead (7) (b % 256) (⟨bs, false⟩ : CFile) = some (b % 256, ⟨bs, false⟩) by simp [PbmRawRead]]
  dsimp only
  rw [show (0 + 1 + 1 + 1 + 1 + 1 + 1 + 1 + 1 : Nat) = 0 + 8 by omega, PbmRawAux_shift,
    show (0 + k : Nat) = k by omega, PbmRawAux_byte_irrel k (b % 256) 0]
  cases hres : PbmRawAux k 0 0 ⟨bs, false⟩ with
  | mk r u =>
    cases r with
    | ok pxs => simp [consPixel, List.range_succ]
    | error e => simp [consPixel]

theorem PbmRawAux_small (size : Nat) (hs : size ≤ 8) (b : Nat) (bs : List Nat) :
    PbmRawAux size 0 0 ⟨b :: bs, false⟩ =
      (.ok ((List.range size).map (fun t =>
        if Nat.testBit (b % 256) (7 - t) then (0x000000ff : Nat) else 0xffffffff)),
       if size = 0 then ⟨b :: bs, false⟩ else ⟨bs, false⟩) := by
  interval_cases size <;>
    simp [PbmRawAux, PbmRawRead, consPixel, List.range_succ]

theorem pbm_raw_packing_aux : ∀ (bs : List Nat) (size : Nat), size ≤ 8 * bs.length →
    ∃ u, PbmRawAux size 0 0 ⟨bs, false⟩ =
      (.ok ((List.range size).map (fun i =>
        if Nat.testBit (bs.getD (i / 8) 0 % 256) (7 - i % 8) then (0x000000ff : Nat)
        else 0xffffffff)), u) := by
  intro bs
  induction bs with
  | nil =>
    intro size hs
    simp at hs
    subst hs
    exact ⟨⟨[], false⟩, by simp [PbmRawAux]⟩
  | cons b bs ih =>
    intro size hs
    by_cases h8 : size ≤ 8
    · refine ⟨if size = 0 then ⟨b :: bs, false⟩ else ⟨bs, false⟩, ?_⟩
      rw [PbmRawAux_small size h8 b bs]
      have ha : (List.range size).map (fun i =>
            if Nat.testBit ((b :: bs).getD (i / 8) 0 % 256) (7 - i % 8)
            then (0x000000ff : Nat) else 0xffffffff)
          = (List.range size).map (fun t =>
            if Nat.testBit (b % 256) (7 - t) then (0x000000ff : Nat) else 0xffffffff) := by
        apply List.map_congr_left
        intro t ht
        rw [List.mem_range] at ht
        have h1 : t / 8 = 0 := by omega
        have h2 : t % 8 = t := by omega
        rw [h1, h2]
        simp
      rw [ha]
    · have hsplit : size = 8 + (size - 8) := by omega
      rw [hsplit, PbmRawAux_peel8]
      obtain ⟨u, hu⟩ := ih (size - 8) (by simp at hs; omega)
      refine ⟨u, ?_⟩
      rw [hu]
      dsimp only
      rw [List.range_add, List.map_append, List.map_map]
      have ha : (List.range 8).map (fun i =>
            if Nat.testBit ((b :: bs).getD (i / 8) 0 % 256) (7 - i % 8)
            then (0x000000ff : Nat) else 0xffffffff)
          = (List.range 8).map (fun t =>
            if Nat.testBit (b % 256) (7 - t) then (0x000000ff : Nat) else 0xffffffff) := by
        apply List.map_congr_left
        intro t ht
        rw [List.mem_range] at ht
        have h1 : t / 8 = 0 := by omega
        have h2 : t % 8 = t := by omega
        rw [h1, h2]
        simp
      have hb2 : (List.range (size - 8)).map ((fun i =>
            if Nat.testBit ((b :: bs).getD (i / 8) 0 % 256) (7 - i % 8)
            then (0x000000ff : Nat) else 0xffffffff) ∘ (fun x => 8 + x))
          = (List.range (size - 8)).map (fun i =>
            if Nat.testBit (bs.getD (i / 8) 0 % 256) (7 - i % 8)
            then (0x000000ff : Nat) else 0xffffffff) := by
        apply List.map_congr_left
        intro t ht
        rw [List.mem_range] at ht
        simp only [Function.comp]
        have h1 : (8 + t) / 8 = t / 8 + 1 := by omega
        have h2 : (8 + t) % 8 = t % 8 := by omega
        rw [h1, h2]
        simp
      rw [ha, hb2]

/-- Claim C4: in both PBM decoders a sample bit 1 decodes to black
`0x000000FF` and bit 0 to white `0xFFFFFFFF`: a run of ASCII `'0'`/`'1'`
characters decodes to exactly the corresponding white/black pixels in order,
and in the raw variant pixel i (row-major, 0-based) is taken from bit
position `7 - (i % 8)` of data byte `i / 8`, packed continuously across the
whole image with no per-row padding. -/
theorem pbm_bit_polarity_and_packing (ds r bs : List Nat) (size : Nat)
    (hds : ∀ b ∈ ds, b = 48 ∨ b = 49) (hsize : size ≤ 8 * bs.length) :
    PbmAsciiAux ds.length ⟨ds ++ r, false⟩ =
      some (.ok (ds.map (fun b => if b = 49 then 0x000000ff else 0xffffffff)), ⟨r, false⟩) ∧
    ∃ u, PbmRawAux size 0 0 ⟨bs, false⟩ =
      (.ok ((List.range size).map (fun i =>
        if Nat.testBit (bs.getD (i / 8) 0 % 256) (7 - i % 8) then (0x000000ff : Nat)
        else 0xffffffff)), u) :=
  ⟨pbm_ascii_bits ds r hds, pbm_raw_packing_aux bs size hsize⟩

/-- Witness for C4: ASCII tokens `1 0` give `[black, white]` (the spec's 1x2
example), and the raw byte 0x80 gives `[black, white]` for a 2-pixel image. -/
theorem pbm_bit_polarity_and_packing_witness :
    PbmAsciiAux 2 ⟨[49, 48], false⟩ =
      some (.ok [0x000000ff, 0xffffffff], ⟨[], false⟩) ∧
    ∃ u, PbmRawAux 2 0 0 ⟨[128], false⟩ = (.ok [0x000000ff, 0xffffffff], u) := by
  have h := pbm_bit_polarity_and_packing [49, 48] [] [128] 2
    (by decide) (by decide)
  have hb7 : Nat.testBit 128 7 = true := by decide
  have hb6 : Nat.testBit 128 6 = false := by decide
  constructor
  · have h1 := h.1
    simpa using h1
  · obtain ⟨u, hu⟩ := h.2
    refine ⟨u, ?_⟩
    simpa [List.range_succ, hb7, hb6] using hu

/-- Claim C10: in PBM-ASCII pixel data every byte other than `'0'`, `'1'`,
`'#'` (and EOF) is silently skipped: for any interleaving `xs` of such junk
bytes among the sample characters, the pixel loop never fails — in
particular never with `MalformedInteger` — and produces exactly the pixels
given by the `'0'`/`'1'` characters of `xs` in order, stopping once the
requested pixel count is reached (the trailing stream `r` is arbitrary and
untouched). -/
theorem pbm_ascii_junk_skipped (xs r : List Nat) (hxs : ∀ b ∈ xs, b ≠ 35) :
    ∃ u, PbmAsciiAux (xs.filter (fun b => b = 48 || b = 49)).length ⟨xs ++ r, false⟩ =
      some (.ok ((xs.filter (fun b => b = 48 || b = 49)).map
        (fun b => if b = 49 then 0x000000ff else 0xffffffff)), u) :=
  pbm_ascii_skips xs r hxs

/-- Witness for C10: `a1 0x` among the samples decodes to `[black, white]`
with the junk skipped, never touching the trailing `#`. -/
theorem pbm_ascii_junk_skipped_witness :
    ∃ u, PbmAsciiAux 2 ⟨[97, 49, 32, 48, 120, 35], false⟩ =
      some (.ok [0x000000ff, 0xffffffff], u) := by
  obtain ⟨u, hu⟩ := pbm_ascii_junk_skipped [97, 49, 32, 48, 120] [35] (by decide)
  exact ⟨u, by simpa using hu⟩

theorem SkipToken_consume : ∀ (w rest : List Nat),
    (∀ b ∈ w, isspace b = false ∧ b ≠ 35) →
    SkipToken ⟨w ++ 32 :: rest, false⟩ = ⟨rest, false⟩ := by
  intro w
  induction w with
  | nil =>
    intro rest hw
    rw [SkipToken]
    simp [TokenTerminator, isspace]
  | cons c w ih =>
    intro rest hw
    have hc := hw c (by simp)
    rw [SkipToken]
    simp only [List.cons_append]
    simp [TokenTerminator, hc.1, hc.2]
    exact ih rest (fun b hb => hw b (by simp [hb]))

theorem FindToken_at_token (b : Nat) (t : List Nat) (hsp : isspace b = false)
    (h35 : b ≠ 35) : FindToken ⟨b :: t, false⟩ = ⟨b :: t, false⟩ := by
  rw [FindToken]
  simp [hsp, h35]

theorem TokenMatchAux_token_fail : ∀ (kw w rest : List Nat) (s₀ : CFile),
    (∀ b ∈ w, isspace b = false ∧ b ≠ 35) →
    (∀ b ∈ kw, isspace b = false ∧ b ≠ 35) →
    w ≠ kw →
    (TokenMatchAux s₀ ⟨w ++ 32 :: rest, false⟩ kw).1 = false := by
  intro kw
  induction kw with
  | nil =>
    intro w rest s₀ hw hkw hne
    cases w with
    | nil => exact absurd rfl hne
    | cons c w2 =>
      have hc := hw c (by simp)
      simp only [List.cons_append]
      rw [TokenMatchAux]
      simp [TokenTerminator, hc.1, hc.2]
  | cons ck kw2 ih =>
    intro w rest s₀ hw hkw hne
    cases w with
    | nil =>
      have hck := hkw ck (by simp)
      have h32 : (32 : Nat) ≠ ck := by
        intro he
        rw [← he] at hck
        simp [isspace] at hck
      simp only [List.nil_append]
      rw [TokenMatchAux]
      simp [h32]
    | cons c w2 =>
      by_cases hc : c = ck
      · subst hc
        simp only [List.cons_append]
        rw [TokenMatchAux, if_pos rfl]
        exact ih w2 rest s₀ (fun b hb => hw b (by simp [hb]))
          (fun b hb => hkw b (by simp [hb])) (fun he => hne (by rw [he]))
      · simp only [List.cons_append]
        rw [TokenMatchAux]
        simp [hc]

theorem TokenMatch_token_fail (w rest kw : List Nat)
    (hw : ∀ b ∈ w, isspace b = false ∧ b ≠ 35)
    (hkw : ∀ b ∈ kw, isspace b = false ∧ b ≠ 35) (hne : w ≠ kw) :
    TokenMatch ⟨w ++ 32 :: rest, false⟩ kw = (false, ⟨w ++ 32 :: rest, false⟩) := by
  have hf := TokenMatchAux_token_fail kw w rest ⟨w ++ 32 :: rest, false⟩ hw hkw hne
  have hr := TokenMatchAux_false hf
  rw [TokenMatch, Prod.ext_iff]
  exact ⟨hf, hr⟩

/-- The unknown-keyword branch of the PAM header loop: a token that matches
none of the five keywords is discarded together with the single token that
follows it, and the loop continues with the field values untouched. -/
theorem PamIter_unknown (w v rest : List Nat) (W H D M : Int)
    (hw0 : w ≠ []) (hv0 : v ≠ [])
    (hw : ∀ b ∈ w, isspace b = false ∧ b ≠ 35)
    (hv : ∀ b ∈ v, isspace b = false ∧ b ≠ 35)
    (h1 : w ≠ strDEPTH) (h2 : w ≠ strMAXVAL) (h3 : w ≠ strHEIGHT)
    (h4 : w ≠ strWIDTH) (h5 : w ≠ strENDHDR) :
    PamIter ⟨w ++ 32 :: (v ++ 32 :: rest), false⟩ W H D M = .more ⟨rest, false⟩ W H D M := by
  have hkD : ∀ b ∈ strDEPTH, isspace b = false ∧ b ≠ 35 := by decide
  have hkM : ∀ b ∈ strMAXVAL, isspace b = false ∧ b ≠ 35 := by decide
  have hkH : ∀ b ∈ strHEIGHT, isspace b = false ∧ b ≠ 35 := by decide
  have hkW : ∀ b ∈ strWIDTH, isspace b = false ∧ b ≠ 35 := by decide
  have hkE : ∀ b ∈ strENDHDR, isspace b = false ∧ b ≠ 35 := by decide
  have hft : FindToken ⟨w ++ 32 :: (v ++ 32 :: rest), false⟩ =
      ⟨w ++ 32 :: (v ++ 32 :: rest), false⟩ := by
    cases w with
    | nil => exact absurd rfl hw0
    | cons c w2 =>
      have hc := hw c (by simp)
      simp only [List.cons_append]
      exact FindToken_at_token c _ hc.1 hc.2
  have hm1 := TokenMatch_token_fail w (v ++ 32 :: rest) strDEPTH hw hkD h1
  have hm2 := TokenMatch_token_fail w (v ++ 32 :: rest) strMAXVAL hw hkM h2
  have hm3 := TokenMatch_token_fail w (v ++ 32 :: rest) strHEIGHT hw hkH h3
  have hm4 := TokenMatch_token_fail w (v ++ 32 :: rest) strWIDTH hw hkW h4
  have hm5 := TokenMatch_token_fail w (v ++ 32 :: rest) strENDHDR hw hkE h5
  have hsk1 : SkipToken ⟨w ++ 32 :: (v ++ 32 :: rest), false⟩ = ⟨v ++ 32 :: rest, false⟩ :=
    SkipToken_consume w (v ++ 32 :: rest) hw
  have hft2 : FindToken ⟨v ++ 32 :: rest, false⟩ = ⟨v ++ 32 :: rest, false⟩ := by
    cases v with
    | nil => exact absurd rfl hv0
    | cons e v2 =>
      have he := hv e (by simp)
      simp only [List.cons_append]
      exact FindToken_at_token e _ he.1 he.2
  have hsk2 : SkipToken ⟨v ++ 32 :: rest, false⟩ = ⟨rest, false⟩ :=
    SkipToken_consume v rest hv
  simp only [PamIter, hft, hm1, hm2, hm3, hm4, hm5]
  rw [hsk1, hft2, hsk2]
  simp

/-- Claim C6: in a PAM header, a token that is not one of WIDTH, HEIGHT,
DEPTH, MAXVAL, ENDHDR is discarded together with the single token following
it and parsing continues without failure (fields untouched); in particular
the header `WIDTH 1 HEIGHT 1 DEPTH 1 MAXVAL 255 TUPLTYPE RGB ENDHDR`
decodes successfully — whatever the initial contents of the caller's
variables — ignoring the `TUPLTYPE RGB` field. -/
theorem pam_unknown_token_skipped :
    (∀ (w v rest : List Nat) (W H D M : Int), w ≠ [] → v ≠ [] →
      (∀ b ∈ w, isspace b = false ∧ b ≠ 35) →
      (∀ b ∈ v, isspace b = false ∧ b ≠ 35) →
      w ≠ strDEPTH → w ≠ strMAXVAL → w ≠ strHEIGHT → w ≠ strWIDTH → w ≠ strENDHDR →
      PamIter ⟨w ++ 32 :: (v ++ 32 :: rest), false⟩ W H D M =
        .more ⟨rest, false⟩ W H D M) ∧
    (∀ w₀ h₀ d₀ m₀ : Int, PnmLoad ⟨80 :: 55 :: [87, 73, 68, 84, 72, 32, 49, 32, 72, 69, 73, 71, 72, 84, 32, 49, 32, 68, 69, 80, 84, 72, 32, 49, 32, 77, 65, 88, 86, 65, 76, 32, 50, 53, 53, 32, 84, 85, 80, 76, 84, 89, 80, 69, 32, 82, 71, 66, 32, 69, 78, 68, 72, 68, 82, 32, 255], false⟩ w₀ h₀ d₀ m₀ =
      some (.ok [0xffffffff] 1 1)) := by
  constructor
  · exact PamIter_unknown
  · intro w₀ h₀ d₀ m₀
    have i1 : PamIter ⟨[87, 73, 68, 84, 72, 32, 49, 32, 72, 69, 73, 71, 72, 84, 32, 49, 32, 68, 69, 80, 84, 72, 32, 49, 32, 77, 65, 88, 86, 65, 76, 32, 50, 53, 53, 32, 84, 85, 80, 76, 84, 89, 80, 69, 32, 82, 71, 66, 32, 69, 78, 68, 72, 68, 82, 32, 255], false⟩ w₀ h₀ d₀ m₀ = .more ⟨[72, 69, 73, 71, 72, 84, 32, 49, 32, 68, 69, 80, 84, 72, 32, 49, 32, 77, 65, 88, 86, 65, 76, 32, 50, 53, 53, 32, 84, 85, 80, 76, 84, 89, 80, 69, 32, 82, 71, 66, 32, 69, 78, 68, 72, 68, 82, 32, 255], false⟩ 1 h₀ d₀ m₀ := by
      simp [PamIter, TokenMatch, TokenMatchAux, TokenTerminator, FindToken,
        GrabInt, GrabIntLoop, isspace, strDEPTH, strMAXVAL, strHEIGHT, strWIDTH, strENDHDR]
    have i2 : PamIter ⟨[72, 69, 73, 71, 72, 84, 32, 49, 32, 68, 69, 80, 84, 72, 32, 49, 32, 77, 65, 88, 86, 65, 76, 32, 50, 53, 53, 32, 84, 85, 80, 76, 84, 89, 80, 69, 32, 82, 71, 66, 32, 69, 78, 68, 72, 68, 82, 32, 255], false⟩ 1 h₀ d₀ m₀ = .more ⟨[68, 69, 80, 84, 72, 32, 49, 32, 77, 65, 88, 86, 65, 76, 32, 50, 53, 53, 32, 84, 85, 80, 76, 84, 89, 80, 69, 32, 82, 71, 66, 32, 69, 78, 68, 72, 68, 82, 32, 255], false⟩ 1 1 d₀ m₀ := by
      simp [PamIter, TokenMatch, TokenMatchAux, TokenTerminator, FindToken,
        GrabInt, GrabIntLoop, isspace, strDEPTH, strMAXVAL, strHEIGHT, strWIDTH, strENDHDR]
    have i3 : PamIter ⟨[68, 69, 80, 84, 72, 32, 49, 32, 77, 65, 88, 86, 65, 76, 32, 50, 53, 53, 32, 84, 85, 80, 76, 84, 89, 80, 69, 32, 82, 71, 66, 32, 69, 78, 68, 72, 68, 82, 32, 255], false⟩ 1 1 d₀ m₀ = .more ⟨[77, 65, 88, 86, 65, 76, 32, 50, 53, 53, 32, 84, 85, 80, 76, 84, 89, 80, 69, 32, 82, 71, 66, 32, 69, 78, 68, 72, 68, 82, 32, 255], false⟩ 1 1 1 m₀ := by
      simp [PamIter, TokenMatch, TokenMatchAux, TokenTerminator, FindToken,
        GrabInt, GrabIntLoop, isspace, strDEPTH, strMAXVAL, strHEIGHT, strWIDTH, strENDHDR]
    have i4 : PamIter ⟨[77, 65, 88, 86, 65, 76, 32, 50, 53, 53, 32, 84, 85, 80, 76, 84, 89, 80, 69, 32, 82, 71, 66, 32, 69, 78, 68, 72, 68, 82, 32, 255], false⟩ 1 1 1 m₀ = .more ⟨[84, 85, 80, 76, 84, 89, 80, 69, 32, 82, 71, 66, 32, 69, 78, 68, 72, 68, 82, 32, 255], false⟩ 1 1 1 255 := by
      simp [PamIter, TokenMatch, TokenMatchAux, TokenTerminator, FindToken,
        GrabInt, GrabIntLoop, isspace, strDEPTH, strMAXVAL, strHEIGHT, strWIDTH, strENDHDR]
    have i5 : PamIter ⟨[84, 85, 80, 76, 84, 89, 80, 69, 32, 82, 71, 66, 32, 69, 78, 68, 72, 68, 82, 32, 255], false⟩ 1 1 1 255 = .more ⟨[69, 78, 68, 72, 68, 82, 32, 255], false⟩ 1 1 1 255 := by
      have hsplit : ([84, 85, 80, 76, 84, 89, 80, 69, 32, 82, 71, 66, 32, 69, 78, 68, 72, 68, 82, 32, 255] : List Nat) =
          [84, 85, 80, 76, 84, 89, 80, 69] ++ 32 :: ([82, 71, 66] ++ 32 :: [69, 78, 68, 72, 68, 82, 32, 255]) := by rfl
      rw [hsplit]
      exact PamIter_unknown [84, 85, 80, 76, 84, 89, 80, 69] [82, 71, 66] [69, 78, 68, 72, 68, 82, 32, 255] 1 1 1 255
        (by decide) (by decide) (by decide) (by decide)
        (by decide) (by decide) (by decide) (by decide) (by decide)
    have i6 : PamIter ⟨[69, 78, 68, 72, 68, 82, 32, 255], false⟩ 1 1 1 255 = .done ⟨[255], false⟩ 1 1 1 255 := by
      simp [PamIter, TokenMatch, TokenMatchAux, TokenTerminator, FindToken,
        GrabInt, GrabIntLoop, isspace, strDEPTH, strMAXVAL, strHEIGHT, strWIDTH, strENDHDR]
    have hloop : ReadPamHeaderLoop ⟨[87, 73, 68, 84, 72, 32, 49, 32, 72, 69, 73, 71, 72, 84, 32, 49, 32, 68, 69, 80, 84, 72, 32, 49, 32, 77, 65, 88, 86, 65, 76, 32, 50, 53, 53, 32, 84, 85, 80, 76, 84, 89, 80, 69, 32, 82, 71, 66, 32, 69, 78, 68, 72, 68, 82, 32, 255], false⟩ w₀ h₀ d₀ m₀ =
        some (.ok (1, 1, 1, 255), ⟨[255], false⟩) := by
      rw [ReadPamHeaderLoop, i1]
      dsimp only
      rw [dif_pos (by simp)]
      rw [ReadPamHeaderLoop, i2]
      dsimp only
      rw [dif_pos (by simp)]
      rw [ReadPamHeaderLoop, i3]
      dsimp only
      rw [dif_pos (by simp)]
      rw [ReadPamHeaderLoop, i4]
      dsimp only
      rw [dif_pos (by simp)]
      rw [ReadPamHeaderLoop, i5]
      dsimp only
      rw [dif_pos (by simp)]
      rw [ReadPamHeaderLoop, i6]
    simp [PnmLoad, fgetc, ReadPamHeader, hloop, PamLoad, GrayscaleLoad, GrabBinValue,
      GrabBinFinish, pixelPack, consPixel, uint32ofInt]

/-- Witness for C6: the general unknown-token step applied to the concrete
token TUPLTYPE with value RGB, and the concrete header decode with the
caller's variables initially 0. -/
theorem pam_unknown_token_skipped_witness :
    PamIter ⟨[84, 85, 80, 76, 84, 89, 80, 69] ++ 32 :: ([82, 71, 66] ++
        32 :: [69, 78, 68, 72, 68, 82, 32, 255]), false⟩ 1 1 1 255 =
      .more ⟨[69, 78, 68, 72, 68, 82, 32, 255], false⟩ 1 1 1 255 ∧
    PnmLoad ⟨80 :: 55 :: [87, 73, 68, 84, 72, 32, 49, 32, 72, 69, 73, 71, 72, 84, 32, 49, 32, 68, 69, 80, 84, 72, 32, 49, 32, 77, 65, 88, 86, 65, 76, 32, 50, 53, 53, 32, 84, 85, 80, 76, 84, 89, 80, 69, 32, 82, 71, 66, 32, 69, 78, 68, 72, 68, 82, 32, 255], false⟩ 0 0 0 0 = some (.ok [0xffffffff] 1 1) :=
  ⟨pam_unknown_token_skipped.1 [84, 85, 80, 76, 84, 89, 80, 69] [82, 71, 66]
      [69, 78, 68, 72, 68, 82, 32, 255] 1 1 1 255 (by decide) (by decide)
      (by decide) (by decide) (by decide) (by decide) (by decide) (by decide)
      (by decide),
    pam_unknown_token_skipped.2 0 0 0 0⟩

end ShyPnm
